import Mathlib

/-!
Verification of the filename-classification engine and processing pipeline of
`Manga_Download_Processor.py` (DieselTech/Comic-Management-Scripts).

Strings are modelled as `List Char`; the handful of regular expressions the
code uses are translated into explicit scanners, each documented with the
regex it implements.  Scores are modelled as rationals (Python mixes ints and
floats such as `len(sv)/10`).  The scanners implement ASCII semantics, which
covers every string class the program manipulates in the properties below.
-/

namespace MangaProc

/-- Python strings, modelled as lists of characters. -/
abbrev Str := List Char

/-- Shorthand for building a `Str` from a literal. -/
def str (s : String) : Str := s.data

/-- Python regex word character `\w` (ASCII): letters, digits, underscore. -/
def isWordChar (c : Char) : Bool := c.isAlphanum || c == '_'

/-- Python regex whitespace `\s` (ASCII): space, tab, newline, CR, VT, FF. -/
def isSpaceChar (c : Char) : Bool :=
  c == ' ' || c == '\t' || c == '\n' || c == '\r' || c == '\x0b' || c == '\x0c'

/-- Python `str.strip()` (ASCII whitespace). -/
def pyStrip (s : Str) : Str :=
  ((s.dropWhile isSpaceChar).reverse.dropWhile isSpaceChar).reverse

/-- Python `str.lower()` (ASCII). -/
def lowerStr (s : Str) : Str := s.map Char.toLower

/-- Regex `\b` to the left of a word character: start of string or a
    non-word character before the current position. -/
def boundaryBefore : Option Char → Bool
  | none => true
  | some c => !isWordChar c

/-- Regex `\b` to the right of a word character: end of string or a
    non-word character at the current position. -/
def boundaryAt : Str → Bool
  | [] => true
  | c :: _ => !isWordChar c

/-- Drop a case-insensitive literal (given in lowercase); returns the rest. -/
def dropLitCI : Str → Str → Option Str
  | [], s => some s
  | _, [] => none
  | p :: ps, c :: cs => if p == c.toLower then dropLitCI ps cs else none

/-- Drop a case-sensitive literal; returns the rest. -/
def dropLit : Str → Str → Option Str
  | [], s => some s
  | _, [] => none
  | p :: ps, c :: cs => if p == c then dropLit ps cs else none

/-- Regex `\d+` (greedy): drop one or more digits, returning the rest. -/
def dropDigits1 : Str → Option Str
  | c :: cs => if c.isDigit then some (cs.dropWhile Char.isDigit) else none
  | [] => none

/-- Regex `\s+` (greedy): drop one or more whitespace chars. -/
def dropSpaces1 : Str → Option Str
  | c :: cs => if isSpaceChar c then some (cs.dropWhile isSpaceChar) else none
  | [] => none

/-- Regex `\s*` (greedy). -/
def dropSpaces0 (s : Str) : Str := s.dropWhile isSpaceChar

/-- Regex `c?` for a single literal character (greedy). -/
def dropOptChar (ch : Char) : Str → Str
  | c :: cs => if c == ch then cs else c :: cs
  | [] => []

/-- Run a position-wise matcher over every position of the string (including
    the end position), i.e. the Boolean semantics of `re.search`. -/
def scanPos (f : Option Char → Str → Bool) : Option Char → Str → Bool
  | prev, [] => f prev []
  | prev, c :: cs => f prev (c :: cs) || scanPos f (some c) cs

/-- Run a position-wise partial matcher, returning the first (leftmost)
    result, i.e. `re.search` with extraction. -/
def scanFirst {α : Type} (f : Option Char → Str → Option α) : Option Char → Str → Option α
  | prev, [] => f prev []
  | prev, c :: cs =>
    match f prev (c :: cs) with
    | some a => some a
    | none => scanFirst f (some c) cs

/-- Single-pass accumulator for `runsOf`; `cur` holds the current run,
    reversed. -/
def runsOfAux (p : Char → Bool) : Str → Str → List Str
  | cur, [] => if cur.isEmpty then [] else [cur.reverse]
  | cur, c :: cs =>
    if p c then runsOfAux p (c :: cur) cs
    else if cur.isEmpty then runsOfAux p [] cs
    else cur.reverse :: runsOfAux p [] cs

/-- Maximal runs of characters satisfying `p` (used for `\b\w+\b` findall). -/
def runsOf (p : Char → Bool) (s : Str) : List Str := runsOfAux p [] s

/-- `re.findall(r'\b\w+\b', s)`: the maximal word-character runs. -/
def wordRuns (s : Str) : List Str := runsOf isWordChar s

/-- Number of words in a string (`len(re.findall(r'\b\w+\b', s))`). -/
def countWords (s : Str) : Nat := (wordRuns s).length

/-- `set(w.lower() for w in re.findall(r'\b\w+\b', s))` as a dedup list. -/
def wordSetOf (s : Str) : List Str := ((wordRuns s).map lowerStr).dedup

/-- True when the string contains a run of at least `n` ASCII letters
    (regex `[a-zA-Z]{n,}`). -/
def hasLetterRun (n : Nat) (s : Str) : Bool :=
  (runsOf Char.isAlpha s).any (fun r => n ≤ r.length)

/-- Substring test (used for `re.search` of a plain literal). -/
def containsSub (pat s : Str) : Bool :=
  scanPos (fun _ rest => pat.isPrefixOf rest) none s

/-- `re.search(r'(?i)part|side|extra', value)`. -/
def ciContainsPSE (s : Str) : Bool :=
  let l := lowerStr s
  containsSub (str "part") l || containsSub (str "side") l || containsSub (str "extra") l

/-- Python `str.isdigit()` for ASCII digits: nonempty and all digits. -/
def pyIsDigitStr (s : Str) : Bool := !s.isEmpty && s.all Char.isDigit

/-- Numeric value of a digit string. -/
def pyNatOfDigits (ds : Str) : Nat := ds.foldl (fun n c => n * 10 + (c.toNat - 48)) 0

/-- Python `float(value)` restricted to the decimal forms the extraction
    groups can produce (`[+-]?(\d+(\.\d*)?|\.\d+)` after stripping);
    exponents and special floats never occur in those groups.  The parsed
    value is returned exactly as a scaled integer pair `(num, exp)` denoting
    `num / 10^exp`. -/
def pyFloatParts (s0 : Str) : Option (ℤ × Nat) :=
  let s := pyStrip s0
  let signed : ℤ × Str :=
    match s with
    | '+' :: r => (1, r)
    | '-' :: r => (-1, r)
    | _ => (1, s)
  let ip := signed.2.takeWhile Char.isDigit
  let r1 := signed.2.dropWhile Char.isDigit
  match r1 with
  | [] => if ip.isEmpty then none else some (signed.1 * (pyNatOfDigits ip : ℤ), 0)
  | '.' :: r2 =>
    let fp := r2.takeWhile Char.isDigit
    let r3 := r2.dropWhile Char.isDigit
    if !r3.isEmpty then none
    else if ip.isEmpty && fp.isEmpty then none
    else
      some (signed.1 * ((pyNatOfDigits ip : ℤ) * (10 ^ fp.length : ℤ) +
        (pyNatOfDigits fp : ℤ)), fp.length)
  | _ => none

/-- Python `int(value)` restricted to `[+-]?\d+` after stripping. -/
def pyInt (s0 : Str) : Option ℤ :=
  let s := pyStrip s0
  let signed : ℤ × Str :=
    match s with
    | '+' :: r => (1, r)
    | '-' :: r => (-1, r)
    | _ => (1, s)
  if signed.2.isEmpty then none
  else if signed.2.all Char.isDigit then some (signed.1 * (pyNatOfDigits signed.2 : ℤ))
  else none

/-- `os.path.splitext(s)[0]`: drop the extension at the last dot, unless all
    characters before that dot are dots themselves. -/
def splitextBase (s : Str) : Str :=
  let rev := s.reverse
  let extRev := rev.takeWhile (fun c => !(c == '.'))
  match rev.drop extRev.length with
  | '.' :: before => if before.any (fun c => !(c == '.')) then before.reverse else s
  | _ => s

/-- `os.path.splitext(s)[1]`: the extension including the dot (or empty). -/
def extOf (s : Str) : Str := s.drop (splitextBase s).length

/-- Does `\s+\(\d{4}\)` match at this position?  (Start of the leftmost match
    of `re.sub(r'\s+\(\d{4}\).*$', '', s)`.) -/
def yearParenAt (s : Str) : Bool :=
  match s with
  | c :: _ =>
    isSpaceChar c &&
      (match dropSpaces0 s with
       | '(' :: r =>
         let ds := r.takeWhile Char.isDigit
         ds.length == 4 &&
           (match r.dropWhile Char.isDigit with
            | ')' :: _ => true
            | _ => false)
       | _ => false)
  | [] => false

/-- Truncate at the first position where `\s+\(\d{4}\)` starts (the `.*$`
    swallows everything after the leftmost match). -/
def cleanCut : Str → Str
  | [] => []
  | c :: cs => if yearParenAt (c :: cs) then [] else c :: cleanCut cs

/-- `clean_filename` of `score_match`: strip the extension, then delete from
    the first `\s+\(\d{4}\)` onwards. -/
def cleanFilename (filename : Str) : Str := cleanCut (splitextBase filename)

/-- `re.search(r'\(\d{4}\)', s)`: a parenthesized 4-digit group. -/
def searchParenYear (s : Str) : Bool :=
  scanPos
    (fun _ rest =>
      match rest with
      | '(' :: r =>
        let ds := r.takeWhile Char.isDigit
        ds.length == 4 &&
          (match r.dropWhile Char.isDigit with
           | ')' :: _ => true
           | _ => false)
      | _ => false)
    none s

/-- Tail `(\s+\d+)?$` used by the endswith-chapter regex. -/
def chEndTail (s : Str) : Bool :=
  s.isEmpty ||
    (match dropSpaces1 s with
     | some r =>
       match dropDigits1 r with
       | some r2 => r2.isEmpty
       | none => false
     | none => false)

/-- `re.search(r'(?i)\b(ch\.?|chapter)(\s+\d+)?$', sv)`. -/
def searchChapterEnd (sv : Str) : Bool :=
  scanPos
    (fun prev rest =>
      boundaryBefore prev &&
        ((match dropLitCI (str "chapter") rest with
          | some r => chEndTail r
          | none => false) ||
         (match dropLitCI (str "ch") rest with
          | some r => chEndTail (dropOptChar '.' r) || chEndTail r
          | none => false)))
    none sv

/-- The fixed abbreviation list of `is_likely_abbreviation`. -/
def commonAbbrevs : List Str :=
  [str "co.", str "ltd.", str "inc.", str "llc.", str "corp.", str "dr.", str "mr.",
   str "mrs.", str "ms.", str "jr.", str "sr.", str "vs.", str "etc."]

/-- `is_likely_abbreviation`: lowercased text ends with a common abbreviation,
    or `re.search(r'\b[A-Z]\.\s*', text)` finds a capital letter at a word
    boundary followed by a period. -/
def isLikelyAbbreviation (t : Str) : Bool :=
  commonAbbrevs.any (fun a => a.isSuffixOf (lowerStr t)) ||
    scanPos
      (fun prev rest =>
        boundaryBefore prev &&
          (match rest with
           | c :: '.' :: _ => c.isUpper
           | _ => false))
      none t

/-- `re.fullmatch(r'(?i)(?:vol(?:ume)?|v)\.?\s*\d+', sv)`. -/
def volOnlyFull (sv : Str) : Bool :=
  [str "volume", str "vol", str "v"].any
    (fun p =>
      match dropLitCI p sv with
      | some r =>
        [dropOptChar '.' r, r].any
          (fun r2 =>
            match dropDigits1 (dropSpaces0 r2) with
            | some rest => rest.isEmpty
            | none => false)
      | none => false)

/-- `re.search(r'(?i)\bvol(?:ume)?\.?\s*\d+\b|\sv\d+\b', sv)`
    (volume indicator inside a series name, `validate_series_field`). -/
def searchVolInSeries (sv : Str) : Bool :=
  scanPos
    (fun prev rest =>
      (boundaryBefore prev &&
        (match dropLitCI (str "vol") rest with
         | some r =>
           let stems :=
             match dropLitCI (str "ume") r with
             | some r2 => [r2, r]
             | none => [r]
           stems.any
             (fun a =>
               [dropOptChar '.' a, a].any
                 (fun b =>
                   match dropDigits1 (dropSpaces0 b) with
                   | some tail => boundaryAt tail
                   | none => false))
         | none => false)) ||
      (match rest with
       | c :: v :: r =>
         isSpaceChar c && (v == 'v' || v == 'V') &&
           (match dropDigits1 r with
            | some tail => boundaryAt tail
            | none => false)
       | _ => false))
    none sv

/-- `re.search(r'\bSeason\s*\d+\b|\(S\d+\)', sv)` (case-sensitive). -/
def searchSeason (sv : Str) : Bool :=
  scanPos
    (fun prev rest =>
      (boundaryBefore prev &&
        (match dropLit (str "Season") rest with
         | some r =>
           match dropDigits1 (dropSpaces0 r) with
           | some tail => boundaryAt tail
           | none => false
         | none => false)) ||
      (match rest with
       | '(' :: 'S' :: r =>
         match dropDigits1 r with
         | some (')' :: _) => true
         | _ => false
       | _ => false))
    none sv

/-- `re.match(rf"^{re.escape(sv)}\s+\d{{3}}", clean)`: the complex-series
    prefix test (literal series, whitespace, three digits). -/
def matchPrefix3Digits (sv clean : Str) : Bool :=
  match dropLit sv clean with
  | some r =>
    match dropSpaces1 r with
    | some r2 => 3 ≤ (r2.takeWhile Char.isDigit).length
    | none => false
  | none => false

/-- `re.search(r'(?i)\b(?:ch|chapter)\s*\d+\b(?!$)', sv)`: a chapter marker
    with number not at the very end of the string. -/
def searchChNotEnd (sv : Str) : Bool :=
  scanPos
    (fun prev rest =>
      boundaryBefore prev &&
        ([str "ch", str "chapter"].any
          (fun core =>
            match dropLitCI core rest with
            | some r =>
              match dropDigits1 (dropSpaces0 r) with
              | some tail => boundaryAt tail && !tail.isEmpty
              | none => false
            | none => false)))
    none sv

/-- `re.search(r'(?i)\bepisode\s*\d+\b', sv)`. -/
def searchEpisode (sv : Str) : Bool :=
  scanPos
    (fun prev rest =>
      boundaryBefore prev &&
        (match dropLitCI (str "episode") rest with
         | some r =>
           match dropDigits1 (dropSpaces0 r) with
           | some tail => boundaryAt tail
           | none => false
         | none => false))
    none sv

/-- Occurrences of `\b\d+\b` = maximal word runs consisting of digits. -/
def digitRuns (s : Str) : List Str :=
  (wordRuns s).filter (fun r => r.all Char.isDigit)

/-- `re.search(r'\b(\d+)\b.*\b\1\b', clean)`: some standalone number occurs
    (at least) twice. -/
def hasDupNumber (s : Str) : Bool :=
  (digitRuns s).any (fun r => 2 ≤ (digitRuns s).count r)

/-- `re.search(r'\b(\d+)$', sv)`: trailing digit run with a boundary before
    it; returns the digits. -/
def endNumber (sv : Str) : Option Str :=
  let rev := sv.reverse
  let ds := rev.takeWhile Char.isDigit
  if ds.isEmpty then none
  else if boundaryAt (rev.dropWhile Char.isDigit) then some ds.reverse
  else none

/-- `re.search(rf"{re.escape(sv)}\s+-\s+\w+\s+{number}", clean)`. -/
def searchSvDashWordNum (sv num clean : Str) : Bool :=
  scanPos
    (fun _ rest =>
      match dropLit sv rest with
      | some r1 =>
        (match dropSpaces1 r1 with
         | some ('-' :: r2) =>
           (match dropSpaces1 r2 with
            | some r3 =>
              let w := r3.takeWhile isWordChar
              !w.isEmpty &&
                (match dropSpaces1 (r3.dropWhile isWordChar) with
                 | some r4 => (dropLit num r4).isSome
                 | none => false)
            | none => false)
         | _ => false)
      | none => false)
    none clean

/-- `re.search(r'(?i)chapter\s+\d+$', s)` (no word boundary in the source). -/
def searchChapterNumEnd (s : Str) : Bool :=
  scanPos
    (fun _ rest =>
      match dropLitCI (str "chapter") rest with
      | some r =>
        match dropSpaces1 r with
        | some r2 =>
          match dropDigits1 r2 with
          | some tail => tail.isEmpty
          | none => false
        | none => false
      | none => false)
    none s

/-- `re.search(r'(?i)\bch\.?\s*\d+', s)`. -/
def searchChDotNum (s : Str) : Bool :=
  scanPos
    (fun prev rest =>
      boundaryBefore prev &&
        (match dropLitCI (str "ch") rest with
         | some r =>
           [dropOptChar '.' r, r].any
             (fun b => (dropDigits1 (dropSpaces0 b)).isSome)
         | none => false))
    none s

/-- `re.search(r'\bc\d+\b', s)` (case-sensitive `c`). -/
def searchCNum (s : Str) : Bool :=
  scanPos
    (fun prev rest =>
      boundaryBefore prev &&
        (match rest with
         | 'c' :: r =>
           match dropDigits1 r with
           | some tail => boundaryAt tail
           | none => false
         | _ => false))
    none s

/-- Leftmost match text of `re.search(r'(?i)\bvol(?:ume)?\s*\d+\b|\sv\d+\b', s)`
    (the pollution check compares `match.group()` with the stripped series). -/
def volNoDotFind (s : Str) : Option Str :=
  scanFirst
    (fun prev rest =>
      let tailLen : Str → Option Nat := fun a =>
        match dropDigits1 (dropSpaces0 a) with
        | some tail => if boundaryAt tail then some (rest.length - tail.length) else none
        | none => none
      let alt1 : Option Nat :=
        if boundaryBefore prev then
          match dropLitCI (str "vol") rest with
          | some r =>
            (match dropLitCI (str "ume") r with
             | some r2 =>
               match tailLen r2 with
               | some n => some n
               | none => tailLen r
             | none => tailLen r)
          | none => none
        else none
      match alt1 with
      | some n => some (rest.take n)
      | none =>
        match rest with
        | c :: v :: r =>
          if isSpaceChar c && (v == 'v' || v == 'V') then
            match dropDigits1 r with
            | some tail =>
              if boundaryAt tail then some (rest.take (rest.length - tail.length)) else none
            | none => none
          else none
        | _ => none)
    none s

/-- `re.search(r'\sv\d+$', s)` (case-sensitive `v`). -/
def searchVEnd (s : Str) : Bool :=
  let rev := s.reverse
  let ds := rev.takeWhile Char.isDigit
  !ds.isEmpty &&
    (match rev.dropWhile Char.isDigit with
     | 'v' :: c :: _ => isSpaceChar c
     | _ => false)

/-- `re.search(r'(?i)\bvol(?:ume)?\s*\d+\b|\bv\d+\b', chapter)`. -/
def searchVolInChapter (s : Str) : Bool :=
  scanPos
    (fun prev rest =>
      boundaryBefore prev &&
        ((match dropLitCI (str "vol") rest with
          | some r =>
            let stems :=
              match dropLitCI (str "ume") r with
              | some r2 => [r2, r]
              | none => [r]
            stems.any
              (fun a =>
                match dropDigits1 (dropSpaces0 a) with
                | some tail => boundaryAt tail
                | none => false)
          | none => false) ||
         (match rest with
          | v :: r =>
            (v == 'v' || v == 'V') &&
              (match dropDigits1 r with
               | some tail => boundaryAt tail
               | none => false)
          | [] => false)))
    none s

/-- `re.search(r'\d+\s*-\s*\d+', s)`: a numeric range. -/
def searchRange (s : Str) : Bool :=
  scanPos
    (fun _ rest =>
      match dropDigits1 rest with
      | some r =>
        (match dropSpaces0 r with
         | '-' :: r2 => (dropDigits1 (dropSpaces0 r2)).isSome
         | _ => false)
      | none => false)
    none s

/-- `re.search(rf"\s{chapter}\s+-\s+", series)`. -/
def searchWsChapDash (chapter series : Str) : Bool :=
  scanPos
    (fun _ rest =>
      match rest with
      | c :: r =>
        isSpaceChar c &&
          (match dropLit chapter r with
           | some r1 =>
             (match dropSpaces1 r1 with
              | some ('-' :: r2) => (dropSpaces1 r2).isSome
              | _ => false)
           | none => false)
      | [] => false)
    none series

/-- The `\.?\s*(\d+)\b` tail of the volume-capture regex: optional dot,
    optional whitespace, captured digits, word boundary. -/
def volCapTail (a : Str) : Option Str :=
  if ((dropSpaces0 (dropOptChar '.' a)).takeWhile Char.isDigit).isEmpty then none
  else if boundaryAt ((dropSpaces0 (dropOptChar '.' a)).dropWhile Char.isDigit) then
    some ((dropSpaces0 (dropOptChar '.' a)).takeWhile Char.isDigit)
  else none

/-- Match of `(?i)\bv(?:ol)?\.?\s*(\d+)\b` at one position, returning the
    captured digits (greedy `(?:ol)?` with its backtracking fallback). -/
def volCapHere (prev : Option Char) (rest : Str) : Option Str :=
  if boundaryBefore prev then
    match rest with
    | c :: r =>
      if c == 'v' || c == 'V' then
        match dropLitCI (str "ol") r with
        | some r2 =>
          (match volCapTail r2 with
           | some ds => some ds
           | none => volCapTail r)
        | none => volCapTail r
      else none
    | [] => none
  else none

/-- Captured digits of the leftmost match of
    `re.search(r'\bv(?:ol)?\.?\s*(\d+)\b', s, re.IGNORECASE)` — used by
    `move_to_library`, `detect_format_change` and the manual-pattern
    reconstruction. -/
def volCapFind (s : Str) : Option Str :=
  scanFirst volCapHere none s

/-- `detect_format_change`'s volume probe:
    `re.search(r'\bv(?:ol)?\.?\s*\d+\b', filename, re.IGNORECASE)`. -/
def hasVolumeTokenDFC (filename : Str) : Bool := (volCapFind filename).isSome

/-- `detect_format_change`'s chapter probe:
    `re.search(r'\b(?:ch\.?|chapter)\s*\d+(?:\.\d+)?\b|\s\d{2,3}(?:\.\d+)?\s',
    filename, re.IGNORECASE)`. -/
def hasChapterTokenDFC (filename : Str) : Bool :=
  scanPos
    (fun prev rest =>
      (boundaryBefore prev &&
        (let numTail : Str → Bool := fun b =>
           match dropDigits1 (dropSpaces0 b) with
           | some tail =>
             (match tail with
              | '.' :: r2 =>
                (match dropDigits1 r2 with
                 | some tail2 => boundaryAt tail2 || boundaryAt tail
                 | none => boundaryAt tail)
              | _ => boundaryAt tail)
           | none => false
         (match dropLitCI (str "ch") rest with
          | some r0 => numTail (dropOptChar '.' r0) || numTail r0
          | none => false) ||
         (match dropLitCI (str "chapter") rest with
          | some r0 => numTail r0
          | none => false))) ||
      (match rest with
       | c :: r =>
         isSpaceChar c &&
           (let ds := r.takeWhile Char.isDigit
            (ds.length == 2 || ds.length == 3) &&
              (let tail := r.dropWhile Char.isDigit
               (match tail with
                | '.' :: r2 =>
                  (match dropDigits1 r2 with
                   | some (c2 :: _) => isSpaceChar c2
                   | _ => false)
                | c2 :: _ => isSpaceChar c2
                | [] => false)))
       | [] => false))
    none filename

/-- `re.search(r'^\s*(\d+(?:\.\d+)?)', remainder)`: a leading number,
    with optional decimal part, after optional whitespace. -/
def leadNumFind (s : Str) : Option Str :=
  let r := dropSpaces0 s
  let ds := r.takeWhile Char.isDigit
  if ds.isEmpty then none
  else
    match r.drop ds.length with
    | '.' :: r2 =>
      let fs := r2.takeWhile Char.isDigit
      if fs.isEmpty then some ds else some (ds ++ '.' :: fs)
    | _ => some ds

/-- Captured text of the leftmost `re.search(r'\b(\d+(?:\.\d+)?)\b', s)`. -/
def boundNumFind (s : Str) : Option Str :=
  scanFirst
    (fun prev rest =>
      if boundaryBefore prev then
        let ds := rest.takeWhile Char.isDigit
        if ds.isEmpty then none
        else
          match rest.drop ds.length with
          | '.' :: r2 =>
            let fs := r2.takeWhile Char.isDigit
            if !fs.isEmpty && boundaryAt (r2.drop fs.length) then some (ds ++ '.' :: fs)
            else some ds
          | tail => if boundaryAt tail then some ds else none
      else none)
    none s

/-!  Extraction dictionaries and the scorer (`score_match` and helpers).  -/

/-- A regex `groupdict()` plus the bookkeeping keys the code adds
    (`_pattern_name`, `_original_filename`).  The named fields are exactly
    the groups the pattern table can produce; a `none` field is a group the
    pattern lacks or left unmatched (`None` in Python) — the two behave
    identically in every use the scorer makes of them. -/
structure MatchDict where
  Series : Option Str
  Title : Option Str
  Chapter : Option Str
  Volume : Option Str
  Year : Option Str
  Extra : Option Str
  Source : Option Str
  Part : Option Str
  patternName : Str
  originalFilename : Option Str
deriving Repr, DecidableEq

/-- Python truthiness of an optional string: present and nonempty. -/
def truthyOpt : Option Str → Bool
  | some s => !s.isEmpty
  | none => false

/-- The weight-loop guard: `not value or not isinstance(value, str) or not
    value.strip()` — present, nonempty and not whitespace-only. -/
def fieldActive : Option Str → Bool
  | some s => !s.isEmpty && !(pyStrip s).isEmpty
  | none => false

/-- Python `a or b` on two optional strings, as used for
    `match_dict.get('Series') or match_dict.get('Title')`; a `none` result
    also stands for the falsy `''` (both make every downstream check a
    no-op). -/
def pyOrOpt (a b : Option Str) : Option Str := if truthyOpt a then a else b

/-- The chapter-marker suffixes rejected by `validate_match`. -/
def validMarkers : List Str := [str "Ch.", str "Ch", str "Chapter"]

/-- Does the (stripped) value end with one of the given characters? -/
def endsWithOneOf (s : Str) (cs : List Char) : Bool :=
  match s.reverse with
  | c :: _ => cs.contains c
  | [] => false

/-- `validate_match`'s per-field check for a `Series`/`Title` value
    (`True` = the field passes).  A trailing dash on a value longer than five
    characters is accepted outright (the `continue` in the source). -/
def validateSeriesValue (v : Str) : Bool :=
  let sv := pyStrip v
  if endsWithOneOf sv ['-'] && decide (5 < sv.length) then true
  else if endsWithOneOf sv ['-', ':', '.'] && !isLikelyAbbreviation sv then false
  else if validMarkers.any (fun m => m.isSuffixOf sv) then false
  else if volOnlyFull sv then false
  else true

/-- `validate_match`: every present `Series`/`Title` value must pass. -/
def validateMatch (d : MatchDict) : Bool :=
  (match d.Series with
   | some v => validateSeriesValue v
   | none => true) &&
  (match d.Title with
   | some v => validateSeriesValue v
   | none => true)

/-- A score adjustment plus the `has_significant_penalty` flag it raises.
    Scores are represented in TENTHS of a point throughout (the code's only
    fractional contribution, `min(len(sv)/10, 3)`, is then the integer
    `min(len(sv), 30)`); every constant of the source is multiplied by 10. -/
structure Adj where
  adj : ℤ
  pen : Bool
deriving Repr, DecidableEq

/-- The pattern names exempted from several short-series penalties. -/
def complexPatterns : List Str :=
  [str "Complex_Series", str "Complex_Series2", str "Complex_SeriesDecimal"]

/-- `validate_series_field(value, clean_filename, score, pattern_name)`
    (adjustments in tenths; the relative-length guards `x < y*0.3` are the
    exact-rational comparisons `10x < 3y`, float constants modelled exactly). -/
def validateSeriesField (value clean : Str) (patternName : Str) : Adj :=
  let sv := pyStrip value
  let a1 : ℤ := if 2 ≤ sv.length then min (sv.length : ℤ) 30 else -50
  let a2 : ℤ := if pyIsDigitStr sv then -80 else 0
  let chEnd := searchChapterEnd sv
  let a3 : ℤ := if chEnd then -100 else 0
  let a4 : ℤ :=
    if endsWithOneOf sv ['-', ':', '.'] && !isLikelyAbbreviation sv then -80 else 0
  let volHit := searchVolInSeries sv
  let a5 : ℤ := if volHit then -150 else 0
  let webby := (str "Webtoon_").isPrefixOf patternName
  let seasonHit := !webby && searchSeason sv
  let a6 : ℤ := if seasonHit then -150 else 0
  let isComplex := complexPatterns.contains patternName
  let complexOk := matchPrefix3Digits sv clean
  let a7 : ℤ :=
    if 10 * sv.length < 3 * clean.length then
      (if isComplex && !complexOk then -80 else 0)
    else 0
  let fnw := countWords clean
  let sgw := countWords sv
  let a8 : ℤ :=
    if sgw == 1 && 3 ≤ fnw then
      (if isComplex then (if complexOk then 0 else -100) else -100)
    else 0
  let fset := wordSetOf clean
  let sset := wordSetOf sv
  let overlapLow :=
    10 * (fset.filter (fun w => sset.contains w)).length < 3 * fset.length
  let a9 : ℤ :=
    if 3 ≤ fnw && overlapLow then
      (if isComplex then (if complexOk then 0 else -80) else -80)
    else 0
  let a10 : ℤ := if searchChNotEnd sv then -120 else 0
  let a11 : ℤ := if searchEpisode sv && !webby then -100 else 0
  let repHit :=
    hasDupNumber clean &&
      (match endNumber sv with
       | some num => searchSvDashWordNum sv num clean
       | none => false)
  let a12 : ℤ := if repHit then -150 else 0
  ⟨a1 + a2 + a3 + a4 + a5 + a6 + a7 + a8 + a9 + a10 + a11 + a12,
   chEnd || volHit || seasonHit || repHit⟩

/-- `validate_chapter_field(value, score)` (tenths; the float range test
    `0 <= ch <= 500` on the parsed pair `(num, exp)` is
    `0 ≤ num ∧ num ≤ 500·10^exp`). -/
def validateChapterField (value : Str) : Adj :=
  let a1 : ℤ :=
    match pyFloatParts value with
    | some ch => if 0 ≤ ch.1 ∧ ch.1 ≤ 500 * (10 ^ ch.2 : ℤ) then 20 else -50
    | none => if value.contains '-' then 10 else -20
  let textHit := hasLetterRun 4 value && !ciContainsPSE value
  ⟨a1 + (if textHit then -100 else 0), textHit⟩

/-- `validate_volume_field(value, score)` (tenths). -/
def validateVolumeField (value : Str) : Adj :=
  let a1 : ℤ :=
    match pyFloatParts value with
    | some v => if (10 ^ v.2 : ℤ) ≤ v.1 ∧ v.1 ≤ 100 * (10 ^ v.2 : ℤ) then 10 else -30
    | none => -30
  let textHit := hasLetterRun 4 value
  ⟨a1 + (if textHit then -80 else 0), textHit⟩

/-- `validate_year_field(value, score)` (tenths); `currentYear` is
    `date.today().year`. -/
def validateYearField (value : Str) (currentYear : ℤ) : Adj :=
  match pyInt value with
  | some y => if 1900 ≤ y ∧ y ≤ currentYear + 5 then ⟨10, false⟩ else ⟨-40, true⟩
  | none => ⟨-50, true⟩

/-- `check_field_pollution(match_dict)`. -/
def checkFieldPollution (d : MatchDict) : Adj :=
  let chOpt := d.Chapter
  let sOpt := pyOrOpt d.Series d.Title
  let p1 :=
    match chOpt with
    | some c => hasLetterRun 5 c && !ciContainsPSE c
    | none => false
  let a1 : ℤ := if p1 then -150 else 0
  let p2a :=
    match sOpt with
    | some s => searchChapterNumEnd (pyStrip s)
    | none => false
  let p2b :=
    match sOpt with
    | some s => !searchChapterNumEnd (pyStrip s) && searchChDotNum (pyStrip s)
    | none => false
  let p2c :=
    match sOpt with
    | some s =>
      !searchChapterNumEnd (pyStrip s) && !searchChDotNum (pyStrip s) &&
        searchCNum (pyStrip s)
    | none => false
  let a2 : ℤ := if p2a || p2b || p2c then -150 else 0
  let p3a :=
    match sOpt with
    | some s =>
      (match volNoDotFind s with
       | some m => m == pyStrip s
       | none => false)
    | none => false
  let p3b :=
    match sOpt with
    | some s =>
      (match volNoDotFind s with
       | some m => !(m == pyStrip s) && searchVEnd (pyStrip s)
       | none => false)
    | none => false
  let a3 : ℤ := if p3a then -150 else if p3b then -100 else 0
  let p4 :=
    match chOpt with
    | some c => searchVolInChapter c && !searchRange c
    | none => false
  let a4 : ℤ := if p4 then -100 else 0
  let p5a :=
    match chOpt, sOpt with
    | some c, some s =>
      !c.isEmpty && pyIsDigitStr c && (' ' :: c).isSuffixOf (pyStrip s)
    | _, _ => false
  let p5b :=
    match chOpt, sOpt with
    | some c, some s =>
      !c.isEmpty && pyIsDigitStr c && !((' ' :: c).isSuffixOf (pyStrip s)) &&
        searchWsChapDash c s
    | _, _ => false
  let a5 : ℤ := if p5a then -200 else if p5b then -250 else 0
  ⟨a1 + a2 + a3 + a4 + a5, p1 || p2a || p2b || p2c || p3a || p3b || p5a || p5b⟩

/-- Length of an optional value's string (for the coverage concatenation). -/
def optLen : Option Str → Nat
  | some s => s.length
  | none => 0

/-- Length of `''.join(v for v in match_dict.values() if isinstance(v, str))`:
    the coverage concatenation ranges over every string value of the dict,
    including the `_pattern_name` tag and (when present) the
    `_original_filename` entry. -/
def partsLen (d : MatchDict) : Nat :=
  optLen d.Series + optLen d.Title + optLen d.Chapter + optLen d.Volume +
    optLen d.Year + optLen d.Extra + optLen d.Source + optLen d.Part +
    d.patternName.length + optLen d.originalFilename

/-- The result of `score_match`, with the two bonus decisions exposed
    (the code logs both; we return them alongside the score). -/
structure ScoreDetail where
  score : ℤ
  rejected : Bool
  sig : Bool
  essential : Bool
  coverage : Bool
deriving Repr, DecidableEq

/-- `score_match(match_dict, filename)` (score in tenths of a point);
    `currentYear` abstracts `date.today().year`.  Addition over the weight
    loop commutes, so the per-field contributions are summed field by
    field. -/
def scoreMatchDetail (d : MatchDict) (filename : Str) (currentYear : ℤ) : ScoreDetail :=
  if !validateMatch d then ⟨0, true, false, false, false⟩
  else
    let clean := cleanFilename filename
    let pn := d.patternName
    let bonus : ℤ :=
      if !pn.isEmpty && (str "Webtoon_").isPrefixOf pn then 50
      else if pn == str "Series_Oneshot_Year" then 60
      else if pn == str "Series_Dash_Ch" then 40
      else if pn == str "Complete_Series" || pn == str "Complex_Series" then
        (if truthyOpt d.Series && truthyOpt d.Chapter && truthyOpt d.Year then 30 else 0)
      else 0
    let wSeries : ℤ := if fieldActive d.Series then 100 else 0
    let wTitle : ℤ := if fieldActive d.Title then 100 else 0
    let wChapter : ℤ := if fieldActive d.Chapter then 80 else 0
    let wVolume : ℤ := if fieldActive d.Volume then 60 else 0
    let wYear : ℤ := if fieldActive d.Year then 30 else 0
    let wExtra : ℤ := if fieldActive d.Extra then 20 else 0
    let wSource : ℤ := if fieldActive d.Source then 10 else 0
    let wPart : ℤ := if fieldActive d.Part then 10 else 0
    let wPN : ℤ := if fieldActive (some pn) then 10 else 0
    let wOF : ℤ := if fieldActive d.originalFilename then 10 else 0
    let weights := wSeries + wTitle + wChapter + wVolume + wYear + wExtra +
      wSource + wPart + wPN + wOF
    let aSeries :=
      if fieldActive d.Series then validateSeriesField (d.Series.getD []) clean pn
      else ⟨0, false⟩
    let aTitle :=
      if fieldActive d.Title then validateSeriesField (d.Title.getD []) clean pn
      else ⟨0, false⟩
    let aChapter :=
      if fieldActive d.Chapter then validateChapterField (d.Chapter.getD [])
      else ⟨0, false⟩
    let aVolume :=
      if fieldActive d.Volume then validateVolumeField (d.Volume.getD [])
      else ⟨0, false⟩
    let aYear :=
      if fieldActive d.Year then validateYearField (d.Year.getD []) currentYear
      else ⟨0, false⟩
    let pol := checkFieldPollution d
    let sig := aSeries.pen || aTitle.pen || aChapter.pen || aVolume.pen ||
      aYear.pen || pol.pen
    let hasSeries := truthyOpt d.Series || truthyOpt d.Title
    let hasNumber := truthyOpt d.Chapter || truthyOpt d.Volume
    let essential := hasSeries && hasNumber && !sig
    let ePart : ℤ := if essential then 50 else if !hasSeries then -200 else 0
    let covB :=
      decide (6 * filename.length < 10 * partsLen d) && !sig
    let cPart : ℤ := if covB then 30 else 0
    ⟨bonus + weights + aSeries.adj + aTitle.adj + aChapter.adj + aVolume.adj +
      aYear.adj + pol.adj + ePart + cPart,
     false, sig, essential, covB⟩

/-- The numeric score of `score_match`, in tenths of a point. -/
def scoreMatch (d : MatchDict) (filename : Str) (currentYear : ℤ) : ℤ :=
  (scoreMatchDetail d filename currentYear).score

/-!  Interactive resolution (`handle_interactive_selection`).  -/

/-- One element of the `all_matches` list built by `score_all_patterns`:
    `(pattern_name, match_dict, score)`. -/
structure ScoredMatch where
  pattern : Str
  dict : MatchDict
  score : ℤ
deriving Repr, DecidableEq

/-- The branch `handle_interactive_selection` dispatches to. -/
inductive SelBranch
  | multiple
  | lowConf
  | accept
  | noMatch
deriving Repr, DecidableEq

/-- The dispatch logic of `handle_interactive_selection(filename,
    all_matches, force_interactive)`: forced mismatches go straight to the
    multi-match handler; then close scores (top positive and within 4
    points, i.e. 40 tenths), then low confidence (top below 5 points, 50
    tenths), then plain acceptance. -/
def selectionBranch (allMatches : List ScoredMatch) (forceInteractive : Bool) : SelBranch :=
  if forceInteractive && !allMatches.isEmpty then .multiple
  else
    match allMatches with
    | m1 :: m2 :: _ =>
      if 0 < m1.score && m1.score - m2.score < 40 then .multiple
      else if m1.score < 50 then .lowConf
      else if 0 < m1.score then .accept
      else .noMatch
    | [m1] =>
      if m1.score < 50 then .lowConf
      else if 0 < m1.score then .accept
      else .noMatch
    | [] => .noMatch

/-- `handle_multiple_matches` presents its grouped prompt exactly when it
    receives at least one positively scored match (otherwise it defers to
    `handle_no_matches`); so the grouped disambiguation prompt is shown when
    the dispatcher picks the multi-match branch and a positive score exists. -/
def groupedPromptShown (allMatches : List ScoredMatch) (forceInteractive : Bool) : Bool :=
  decide (selectionBranch allMatches forceInteractive = .multiple) &&
    allMatches.any (fun m => 0 < m.score)

/-!  Conversion pipeline (`convert_to_webp` / `process_cbz_file`).  -/

/-- An entry written into the new archive by `convert_to_webp`. -/
inductive NewEntry
  | converted (path : Str)
  | original (path : Str)
  | keptWebp (path : Str)
  | passthrough (path : Str)
deriving Repr, DecidableEq

/-- Lowercased extension, `os.path.splitext(file_path)[1].lower()`. -/
def lowerExt (p : Str) : Str := lowerStr (extOf p)

/-- File classification of `convert_to_webp`: raster images to convert. -/
def isImageToConvert (p : Str) : Bool :=
  [str ".jpg", str ".jpeg", str ".png"].contains (lowerExt p)

/-- File classification of `convert_to_webp`: already-WebP files. -/
def isWebpFile (p : Str) : Bool := lowerExt p == str ".webp"

/-- External-collaborator oracles of the pipeline: whether `convert_image`
    succeeds on a given path (PIL decode/encode and the 16383-pixel
    dimension guard), and the byte size of the written archive. -/
structure ConvEnv where
  convertOk : Str → Bool
  newArchiveSize : Nat

/-- The entries written into the new zip: each image contributes its WebP
    conversion on success and its original bytes on failure (the fallback in
    the `as_completed` loop); WebP files and other files are copied through.
    Entry counts are insensitive to the nondeterministic completion order,
    which is therefore modelled as list order. -/
def buildEntries (files : List Str) (env : ConvEnv) : List NewEntry :=
  (files.filter isImageToConvert).map
      (fun p => if env.convertOk p then .converted p else .original p) ++
    (files.filter isWebpFile).map .keptWebp ++
    (files.filter (fun p => !isImageToConvert p && !isWebpFile p)).map .passthrough

/-- `convert_to_webp(source_filepath, temp_dir, max_threads)`:
    `originalCount` is `len(zip_ref.namelist())` of the source archive and
    `files` the files found by `os.walk` after extraction.  Returns `none`
    exactly on the code's rejection paths: nothing extracted, nothing added,
    entry-count mismatch, or a suspiciously small output. -/
def convertToWebp (originalCount : Nat) (files : List Str) (env : ConvEnv) :
    Option (List NewEntry) :=
  if files.isEmpty then none
  else if (buildEntries files env).length == 0 then none
  else if !((buildEntries files env).length == originalCount) then none
  else if env.newArchiveSize < 1024 then none
  else some (buildEntries files env)

/-- What `process_cbz_file` moves to the library. -/
inductive FileChoice
  | convertedArchive (entries : List NewEntry)
  | originalArchive
deriving Repr, DecidableEq

/-- The selection in `process_cbz_file`: a rejected conversion falls back to
    the unmodified original; an accepted one is used when smaller or at most
    2% larger than the original. -/
def processCbzChoice (convResult : Option (List NewEntry)) (newSize originalSize : Nat) :
    FileChoice :=
  match convResult with
  | none => .originalArchive
  | some es =>
    if newSize < originalSize then .convertedArchive es
    else if 100 * newSize ≤ 102 * originalSize then .convertedArchive es
    else .originalArchive

/-!  Library placement (`move_to_library`).  -/

/-- The volume/chapter override at the top of `move_to_library`: when the
    extraction carries no (truthy) volume but the source file's name matches
    `\bv(?:ol)?\.?\s*(\d+)\b`, the captured digits become the volume; and in
    that same branch a chapter that is all digits, strictly between 1900 and
    2100, is cleared when the name also contains a parenthesized 4-digit
    group. -/
def moveToLibraryAdjust (volume chapter : Option Str) (sourceFilename : Str) :
    Option Str × Option Str :=
  if !truthyOpt volume then
    match volCapFind sourceFilename with
    | some d =>
      let yearish :=
        truthyOpt chapter && pyIsDigitStr (chapter.getD []) &&
          decide (1900 < pyNatOfDigits (chapter.getD [])) &&
          decide (pyNatOfDigits (chapter.getD []) < 2100)
      let ch2 := if yearish && searchParenYear sourceFilename then none else chapter
      (some d, ch2)
    | none => (volume, chapter)
  else (volume, chapter)

/-- Destination file-name composition shared by `move_to_library`,
    `process_cbz_file` and `get_destination_preview`:
    series, then ` v{volume}`, then ` - One-shot` or ` - Chapter {chapter}`,
    then the extension. -/
def composeFileName (seriesName : Str) (volume chapter : Option Str)
    (isOneshot : Bool) (ext : Str) : Str :=
  seriesName ++
    (if truthyOpt volume then str " v" ++ volume.getD [] else []) ++
    (if isOneshot then str " - One-shot"
     else if truthyOpt chapter then str " - Chapter " ++ chapter.getD []
     else []) ++
    ext

/-- The destination file name `move_to_library` composes (its extension is
    `os.path.splitext(source_file)[1]`). -/
def moveToLibraryFileName (seriesName : Str) (volume chapter : Option Str)
    (sourceFilename : Str) (isOneshot : Bool) : Str :=
  let vc := moveToLibraryAdjust volume chapter sourceFilename
  composeFileName seriesName vc.1 vc.2 isOneshot (extOf sourceFilename)

/-- The destination path relative to the library root:
    `{series}/{file_name}`. -/
def moveToLibraryRelPath (seriesName : Str) (volume chapter : Option Str)
    (sourceFilename : Str) (isOneshot : Bool) : Str :=
  seriesName ++ '/' :: moveToLibraryFileName seriesName volume chapter sourceFilename isOneshot

/-!  Format-drift detection (`detect_format_change`) and the database-first
     classification path (`try_database_match` / `match_best_pattern`).  -/

/-- One value of the in-memory `_stored_format_types` dictionary. -/
structure Fingerprint where
  hasVolume : Bool
  hasChapter : Bool
  exampleFilename : Str
deriving Repr, DecidableEq

/-- `_stored_format_types`, as an association list. -/
abbrev FormatState := List (Str × Fingerprint)

/-- Dictionary lookup. -/
def lookupFmt (st : FormatState) (series : Str) : Option Fingerprint :=
  (st.find? (fun p => p.1 == series)).map (fun p => p.2)

/-- Dictionary assignment (replace or append; the code only ever reads back
    through `lookupFmt`, so placement of a fresh key is immaterial). -/
def setFmt (st : FormatState) (series : Str) (fp : Fingerprint) : FormatState :=
  if (st.find? (fun p => p.1 == series)).isSome then
    st.map (fun p => if p.1 == series then (series, fp) else p)
  else st ++ [(series, fp)]

/-- `detect_format_change(series_name, filename)`: the first file of a
    series records its volume/chapter fingerprint and reports no change;
    later files are compared against the stored fingerprint, which is
    refreshed whenever a change is detected. -/
def detectFormatChange (st : FormatState) (series filename : Str) :
    Bool × FormatState :=
  match lookupFmt st series with
  | none =>
    (false,
     setFmt st series ⟨hasVolumeTokenDFC filename, hasChapterTokenDFC filename, filename⟩)
  | some prev =>
    let curV := hasVolumeTokenDFC filename
    let curC := hasChapterTokenDFC filename
    if !(prev.hasVolume == curV) || !(prev.hasChapter == curC) then
      (true, setFmt st series ⟨curV, curC, filename⟩)
    else (false, st)

/-- The fields of a `get_stored_pattern` hit that `try_database_match`
    consumes. -/
structure DbMatch where
  patternName : Str
  seriesName : Str
  isManual : Bool
deriving Repr, DecidableEq

/-- The value `try_database_match` hands back to `match_best_pattern`:
    Python's `None` (fall through to full re-scoring), the
    `("FORCE_INTERACTIVE", None)` marker, or a `(pattern_name, match_dict)`
    pair. -/
inductive TDMatch
  | noMatch
  | forceInteractive
  | matched (pat : Str) (d : MatchDict)
deriving Repr, DecidableEq

/-- An empty dict for reconstruction paths. -/
def emptyDict (pn : Str) : MatchDict :=
  ⟨none, none, none, none, none, none, none, none, pn, none⟩

/-- `handle_manual_pattern(db_match, filename, pattern_name)`: rebuild
    `{Series, Chapter?, Volume?}` from the remainder after the stored
    series-name prefix. -/
def handleManualPattern (dbm : DbMatch) (filename : Str) : TDMatch :=
  let base : MatchDict :=
    ⟨some dbm.seriesName, none, none, none, none, none, none, none, dbm.patternName, none⟩
  if dbm.seriesName.isPrefixOf filename then
    let remainder := pyStrip (filename.drop dbm.seriesName.length)
    let ch :=
      match leadNumFind remainder with
      | some c => some c
      | none => boundNumFind remainder
    let vol := volCapFind remainder
    .matched dbm.patternName
      ⟨some dbm.seriesName, none, ch, vol, none, none, none, none, dbm.patternName, none⟩
  else .matched dbm.patternName base

/-- Replace the `_pattern_name` tag of a dict. -/
def setPatternName (d : MatchDict) (pn : Str) : MatchDict :=
  ⟨d.Series, d.Title, d.Chapter, d.Volume, d.Year, d.Extra, d.Source, d.Part, pn,
   d.originalFilename⟩

/-- `handle_regular_pattern(db_match, filename)`; `reApply` is the regex
    oracle for re-applying the named stored rule to the file (`none` both
    when the name is unknown and when the regex does not match — the two
    code paths return the same value).  A freshly parsed series that
    disagrees with the stored one is rejected (the anti-drift guard). -/
def handleRegularPattern (dbm : DbMatch) (filename : Str)
    (reApply : Str → Str → Option MatchDict) : Option (Str × MatchDict) :=
  match reApply dbm.patternName filename with
  | none => none
  | some d0 =>
    let d := setPatternName d0 dbm.patternName
    let cur := pyOrOpt d.Series d.Title
    if truthyOpt cur && !(pyStrip (cur.getD []) == pyStrip dbm.seriesName) then none
    else some (dbm.patternName, d)

/-- The tail of `try_database_match` after the drift check: manual patterns
    are reconstructed, regular patterns re-applied; a rejected regular
    pattern yields the `FORCE_INTERACTIVE` marker outside auto mode. -/
def tdmProceed (dbm : DbMatch) (filename : Str) (autoMode : Bool)
    (reApply : Str → Str → Option MatchDict) : TDMatch :=
  if dbm.isManual then handleManualPattern dbm filename
  else
    match handleRegularPattern dbm filename reApply with
    | some pd => .matched pd.1 pd.2
    | none => if !autoMode then .forceInteractive else .noMatch

/-- `try_database_match(filename, auto_mode)`, threading the format-drift
    state; `dbMatch` is the `get_stored_pattern` hit, `driftAnswer` the
    normalized reply to the drift confirmation prompt.  On detected drift,
    auto mode and a declined confirmation both return `None` (re-classify). -/
def tryDatabaseMatch (dbMatch : Option DbMatch) (st : FormatState) (filename : Str)
    (autoMode : Bool) (driftAnswer : Str)
    (reApply : Str → Str → Option MatchDict) : TDMatch × FormatState :=
  match dbMatch with
  | none => (.noMatch, st)
  | some dbm =>
    if (detectFormatChange st dbm.seriesName filename).1 then
      if autoMode then (.noMatch, (detectFormatChange st dbm.seriesName filename).2)
      else if !(driftAnswer == str "y") then
        (.noMatch, (detectFormatChange st dbm.seriesName filename).2)
      else (tdmProceed dbm filename autoMode reApply,
        (detectFormatChange st dbm.seriesName filename).2)
    else (tdmProceed dbm filename autoMode reApply,
      (detectFormatChange st dbm.seriesName filename).2)

/-- Session state `_stored_pattern_choice` / `_stored_manual_pattern`. -/
structure SessionPattern where
  patternName : Str
  seriesPrefix : Str
  dict : MatchDict
deriving Repr, DecidableEq

/-- Session skip entry `_stored_skip_series`. -/
structure SkipInfo where
  series : Str
  seriesPrefix : Str
deriving Repr, DecidableEq

/-- Copy a session dict with an updated chapter (`match_dict['Chapter'] = ...`). -/
def setChapter (d : MatchDict) (c : Str) : MatchDict :=
  ⟨d.Series, d.Title, some c, d.Volume, d.Year, d.Extra, d.Source, d.Part, d.patternName,
   d.originalFilename⟩

/-- `try_session_stored_patterns(filename)`: the remembered interactive
    choice is re-applied (with the same series-mismatch guard, which returns
    `None` outright); otherwise a remembered manual pattern re-extracts the
    chapter from the remainder after the series prefix. -/
def trySessionStored (filename : Str) (choice manual : Option SessionPattern)
    (reApply : Str → Str → Option MatchDict) : Option (Str × MatchDict) :=
  let manualStage : Option (Str × MatchDict) :=
    match manual with
    | some stored =>
      if stored.seriesPrefix.isPrefixOf filename then
        match boundNumFind (filename.drop stored.seriesPrefix.length) with
        | some ch => some (str "Manual Entry", setChapter stored.dict ch)
        | none => none
      else none
    | none => none
  match choice with
  | some stored =>
    if stored.seriesPrefix.isPrefixOf filename then
      match reApply stored.patternName filename with
      | some d0 =>
        let d := setPatternName d0 stored.patternName
        let cur := pyOrOpt d.Series d.Title
        let exp := pyOrOpt stored.dict.Series stored.dict.Title
        if truthyOpt cur && truthyOpt exp &&
            !(pyStrip (cur.getD []) == pyStrip (exp.getD [])) then none
        else some (stored.patternName, d)
      | none => manualStage
    else manualStage
  | none => manualStage

/-- The terminal dispatch of `match_best_pattern`, naming the return site
    reached (each constructor carries the data the code passes there). -/
inductive MBPOutcome
  | skipListed
  | dbMatched (pat : Str) (d : MatchDict)
  | sessionMatched (pat : Str) (d : MatchDict)
  | resolvedAuto (allMatches : List ScoredMatch)
  | resolvedInteractive (allMatches : List ScoredMatch) (forced : Bool)
deriving Repr, DecidableEq

/-- `match_best_pattern(filename, auto_mode)`: skip list, then the database
    (with drift handling), then session patterns, then scoring of every rule
    with auto or interactive resolution.  `extractSeries` abstracts
    `extract_series_name(filename)` and `scoreAll` the result of
    `score_all_patterns(filename)`. -/
def matchBestPattern (filename : Str) (autoMode : Bool) (skip : Option SkipInfo)
    (choice manual : Option SessionPattern) (extractSeries : Option Str)
    (dbLookup : Option DbMatch) (st : FormatState) (driftAnswer : Str)
    (reApply : Str → Str → Option MatchDict) (scoreAll : List ScoredMatch) :
    MBPOutcome × FormatState :=
  let skipHit :=
    match skip with
    | some sk => sk.seriesPrefix.isPrefixOf filename
    | none => false
  if skipHit then (.skipListed, st)
  else
    let choice2 :=
      match choice, extractSeries with
      | some c, some ps =>
        if !ps.isEmpty && c.seriesPrefix == ps then none else some c
      | c, _ => c
    let dbRes := tryDatabaseMatch dbLookup st filename autoMode driftAnswer reApply
    match dbRes.1 with
    | .matched p d => (.dbMatched p d, dbRes.2)
    | .forceInteractive => (.resolvedInteractive scoreAll true, dbRes.2)
    | .noMatch =>
      match trySessionStored filename choice2 manual reApply with
      | some pd => (.sessionMatched pd.1 pd.2, dbRes.2)
      | none =>
        if autoMode then (.resolvedAuto scoreAll, dbRes.2)
        else (.resolvedInteractive scoreAll false, dbRes.2)

/-!  Pattern memory store (`series_patterns` table, `get_stored_pattern`).  -/

/-- A row of the `series_patterns` table (schema in `init_database`;
    `series_name` carries a UNIQUE constraint). -/
structure SeriesRow where
  rowId : Nat
  seriesName : Str
  patternName : Option Str
  isManual : Bool
  matchDict : Option Str
  createdAt : Nat
  lastUsedAt : Nat
  useCount : Nat
deriving Repr, DecidableEq

/-- The dictionary `get_stored_pattern` returns (the JSON `match_dict` is
    carried verbatim). -/
structure PatternInfo where
  patternName : Option Str
  isManual : Bool
  seriesName : Str
  useCount : Nat
  matchJson : Option Str
deriving Repr, DecidableEq

/-- SQLite `filename LIKE series_name || '%'`: case-insensitive (ASCII)
    prefix test (wildcard metacharacters inside stored series names are not
    modelled). -/
def likePrefixCI (p s : Str) : Bool := (lowerStr p).isPrefixOf (lowerStr s)

/-- One candidate row of the prefix fallback query: keep the matching row
    with the longest series name seen so far. -/
def lprStep (filename : Str) (best : Option SeriesRow) (row : SeriesRow) :
    Option SeriesRow :=
  if likePrefixCI row.seriesName filename then
    match best with
    | none => some row
    | some b =>
      if b.seriesName.length < row.seriesName.length then some row else some b
  else best

/-- The prefix fallback query: rows whose series name is a prefix of the
    filename, ordered by name length descending, `LIMIT 1`. -/
def longestPrefixRow (filename : Str) (db : List SeriesRow) : Option SeriesRow :=
  db.foldl (lprStep filename) none

/-- `get_stored_pattern(filename)`: exact lookup on the extracted series
    name, then longest-prefix fallback; every hit updates the matched row's
    `last_used_at` and `use_count` (read value plus one) before returning.
    `extractedSeries` abstracts `extract_series_name(filename)` and `now`
    abstracts `int(time.time())`. -/
def getStoredPattern (extractedSeries : Option Str) (filename : Str)
    (db : List SeriesRow) (now : Nat) : Option PatternInfo × List SeriesRow :=
  match extractedSeries with
  | none => (none, db)
  | some key =>
    if key.isEmpty then (none, db)
    else
      let found : Option SeriesRow :=
        match db.find? (fun row => row.seriesName == key) with
        | some r => some r
        | none => longestPrefixRow filename db
      match found with
      | none => (none, db)
      | some r =>
        let newCount := r.useCount + 1
        (some ⟨r.patternName, r.isManual, r.seriesName, newCount, r.matchDict⟩,
         db.map
           (fun row =>
             if row.seriesName == r.seriesName then
               ⟨row.rowId, row.seriesName, row.patternName, row.isManual,
                row.matchDict, row.createdAt, now, newCount⟩
             else row))

/-!  Undo (`undo_processing_run`, deletion-and-marking loop).  -/

/-- A row of the `processing_history` table (the columns the undo loop
    touches). -/
structure HistRecord where
  recId : Nat
  runId : Str
  sourcePath : Str
  destPath : Str
  undoneAt : Option Nat
deriving Repr, DecidableEq

/-- Existing files, as a set-like list of paths. -/
abbrev FileSys := List Str

/-- `UPDATE processing_history SET undone_at = ? WHERE id = ?`. -/
def markUndone (db : List HistRecord) (rid : Nat) (now : Nat) : List HistRecord :=
  db.map
    (fun r =>
      if r.recId == rid then ⟨r.recId, r.runId, r.sourcePath, r.destPath, some now⟩
      else r)

/-- One iteration of the removal loop of `undo_processing_run`: delete the
    destination file if it exists and only then mark the record undone. -/
def undoStep (now : Nat) (st : List HistRecord × FileSys) (r : HistRecord) :
    List HistRecord × FileSys :=
  if st.2.contains r.destPath then
    (markUndone st.1 r.recId now, st.2.filter (fun p => !(p == r.destPath)))
  else st

/-- The deletion-and-marking phase of `undo_processing_run(run_id)`: the
    snapshot query `SELECT id, source_path, dest_path FROM processing_history
    WHERE run_id = ?` selects every record of the run — there is no
    `undone_at IS NULL` filter — and the loop removes each existing
    destination file, marking exactly those records. -/
def undoDeletePhase (runId : Str) (now : Nat) (db : List HistRecord) (fs : FileSys) :
    List HistRecord × FileSys :=
  ((db.filter (fun r => r.runId == runId)).foldl (undoStep now) (db, fs))

/-!  Auxiliary notion taken from the specification's words (for comparison
     with the code), and concrete instances used in the statements below.  -/

/-- Modelled from the spec: length of "the concatenation of the extracted
    field values (the fields produced by the rule from the filename)" — the
    eight extraction groups only, excluding the bookkeeping values the code
    also concatenates. -/
def specExtractedLen (d : MatchDict) : Nat :=
  optLen d.Series + optLen d.Title + optLen d.Chapter + optLen d.Volume +
    optLen d.Year + optLen d.Extra + optLen d.Source + optLen d.Part

/-- Extraction of the rule `Ch_bare` on `"Magical Girl- 12 (2020).cbz"`:
    `Series = "Magical Girl-"`, `Chapter = "12"` (its `Part` group is
    unmatched), as scored by `score_all_patterns`. -/
def exDictDash : MatchDict :=
  ⟨some (str "Magical Girl-"), none, some (str "12"), none, none, none, none, none,
   str "Ch_bare", some (str "Magical Girl- 12 (2020).cbz")⟩

/-- The filename of `exDictDash`. -/
def exFileDash : Str := str "Magical Girl- 12 (2020).cbz"

/-- Extraction of the rule `Ch` on `"c5 Cool Series Name.cbz"`: only
    `Chapter = "5"`, as scored by `score_all_patterns`. -/
def exDictCh : MatchDict :=
  ⟨none, none, some (str "5"), none, none, none, none, none,
   str "Ch", some (str "c5 Cool Series Name.cbz")⟩

/-- The filename of `exDictCh`. -/
def exFileCh : Str := str "c5 Cool Series Name.cbz"

/-- A scored-match list (scores in tenths) whose top score is positive and
    whose second score is non-positive, within 4 points of each other
    (sorted descending): 2 points and -1 point. -/
def exCloseMatches : List ScoredMatch :=
  [⟨str "Series_Dash_Ch", emptyDict (str "Series_Dash_Ch"), 20⟩,
   ⟨str "Ch_bare", emptyDict (str "Ch_bare"), -10⟩]

/-- A two-row `series_patterns` store with distinct series names. -/
def exPatternDb : List SeriesRow :=
  [⟨1, str "Alpha", some (str "P1"), false, none, 10, 10, 3⟩,
   ⟨2, str "Beta", none, true, none, 11, 11, 0⟩]

/-- A processing-history record whose `undone_at` is already set. -/
def exUndoneRecord : HistRecord :=
  ⟨1, str "runA", str "/dl/F/a.cbz", str "/lib/S/S - Chapter 1.cbz", some 50⟩

/-- A file system still holding that record's destination file. -/
def exUndoFs : FileSys := [str "/lib/S/S - Chapter 1.cbz"]

/-- A three-record processing history: two records of run `runA` (one of
    them already marked undone) and one of run `runB`. -/
def exC2Db : List HistRecord :=
  [⟨1, str "runA", str "/dl/a.cbz", str "/lib/a.cbz", some 50⟩,
   ⟨2, str "runA", str "/dl/b.cbz", str "/lib/b.cbz", none⟩,
   ⟨3, str "runB", str "/dl/c.cbz", str "/lib/c.cbz", none⟩]

/-- A file system holding all three destination files of `exC2Db`. -/
def exC2Fs : FileSys := [str "/lib/a.cbz", str "/lib/b.cbz", str "/lib/c.cbz"]

/-!  Theorems.  -/

theorem image_not_webp (p : Str) (h : isImageToConvert p = true) : isWebpFile p = false := by
  by_contra hw
  rw [Bool.not_eq_false] at hw
  unfold isWebpFile at hw
  have hext : lowerExt p = str ".webp" := by simpa using hw
  unfold isImageToConvert at h
  rw [hext] at h
  exact absurd h (by decide)

theorem buildEntries_length (files : List Str) (env : ConvEnv) :
    (buildEntries files env).length = files.length := by
  induction files with
  | nil => rfl
  | cons p rest ih =>
    unfold buildEntries at ih ⊢
    by_cases hi : isImageToConvert p = true
    · have hw := image_not_webp p hi
      simp [List.filter_cons, hi, hw] at ih ⊢
      omega
    · rw [Bool.not_eq_true] at hi
      by_cases hw : isWebpFile p = true
      · simp [List.filter_cons, hi, hw] at ih ⊢
        omega
      · rw [Bool.not_eq_true] at hw
        simp [List.filter_cons, hi, hw] at ih ⊢
        omega

theorem convertToWebp_some_length {oc : Nat} {files : List Str} {env : ConvEnv}
    {es : List NewEntry} (h : convertToWebp oc files env = some es) :
    es.length = oc := by
  unfold convertToWebp at h
  split at h
  · exact Option.noConfusion h
  split at h
  · exact Option.noConfusion h
  split at h
  · exact Option.noConfusion h
  split at h
  · exact Option.noConfusion h
  rename_i h1 h2 h3 h4
  rw [Bool.not_eq_true, Bool.not_eq_false'] at h3
  have hes := Option.some.inj h
  rw [← hes]
  exact eq_of_beq h3

theorem convertToWebp_isSome_iff (oc : Nat) (files : List Str) (env : ConvEnv) :
    (convertToWebp oc files env).isSome ↔
      (files ≠ [] ∧ files.length = oc ∧ 1024 ≤ env.newArchiveSize) := by
  unfold convertToWebp
  rw [buildEntries_length]
  rcases files with - | ⟨p, rest⟩
  · simp
  · have h0 : ((p :: rest).length == 0) = false := by simp
    rw [h0]
    simp only [List.isEmpty_cons, Bool.false_eq_true, if_false]
    by_cases hc : (p :: rest).length = oc
    · have h2 : ((p :: rest).length == oc) = true := by simpa using hc
      rw [h2]
      by_cases hs : env.newArchiveSize < 1024
      · simp only [Bool.not_true, Bool.false_eq_true, if_false, if_pos hs]
        simp only [Option.isSome_none, Bool.false_eq_true, false_iff]
        intro hcon
        omega
      · simp only [Bool.not_true, Bool.false_eq_true, if_false, if_neg hs]
        simp only [Option.isSome_some, true_iff]
        exact ⟨by simp, hc, by omega⟩
    · have h2 : ((p :: rest).length == oc) = false := by simpa using hc
      rw [h2]
      simp only [Bool.not_false, if_true, Option.isSome_none, Bool.false_eq_true, false_iff]
      intro hcon
      exact hc hcon.2.1

theorem buildEntries_count_original (files : List Str) (env : ConvEnv) (p : Str)
    (himg : isImageToConvert p = true) (hfail : env.convertOk p = false)
    (honce : files.count p = 1) :
    (buildEntries files env).count (NewEntry.original p) = 1 := by
  unfold buildEntries
  rw [List.count_eq_countP, List.countP_append, List.countP_append,
    List.countP_map, List.countP_map, List.countP_map,
    List.countP_filter, List.countP_filter, List.countP_filter]
  have hA : List.countP
      (fun a =>
        ((fun x => x == NewEntry.original p) ∘ fun q =>
            if env.convertOk q then NewEntry.converted q else NewEntry.original q) a &&
          isImageToConvert a) files = 1 := by
    rw [List.countP_congr (q := fun a => a == p)]
    · rw [← List.count_eq_countP]
      exact honce
    · intro a _
      simp only [Function.comp_apply, Bool.and_eq_true, beq_iff_eq]
      constructor
      · rintro ⟨hbeq, -⟩
        by_cases hc : env.convertOk a = true
        · rw [if_pos hc] at hbeq
          exact NewEntry.noConfusion hbeq
        · rw [Bool.not_eq_true] at hc
          rw [if_neg (by simp [hc])] at hbeq
          exact NewEntry.original.inj hbeq
      · intro hp
        subst hp
        rw [if_neg (by simp [hfail])]
        exact ⟨rfl, himg⟩
  have hB : List.countP
      (fun a =>
        ((fun x => x == NewEntry.original p) ∘ NewEntry.keptWebp) a && isWebpFile a)
      files = 0 := by
    rw [List.countP_eq_zero]
    intro a _
    simp only [Function.comp_apply, Bool.and_eq_true, beq_iff_eq, not_and]
    intro hbeq
    exact NewEntry.noConfusion hbeq
  have hC : List.countP
      (fun a =>
        ((fun x => x == NewEntry.original p) ∘ NewEntry.passthrough) a &&
          (!isImageToConvert a && !isWebpFile a)) files = 0 := by
    rw [List.countP_eq_zero]
    intro a _
    simp only [Function.comp_apply, Bool.and_eq_true, beq_iff_eq, not_and]
    intro hbeq
    exact NewEntry.noConfusion hbeq
  rw [hA, hB, hC]

/-- C1: for every archive handed to the conversion pipeline, a conversion
result that `process_cbz_file` actually uses has exactly as many entries as
the original archive; when `convert_to_webp` returns `None` the caller falls
back to placing the unmodified original file. -/
theorem C1_convert_preserves_entry_count (oc : Nat) (files : List Str) (env : ConvEnv)
    (newSize origSize : Nat) :
    (∀ es, processCbzChoice (convertToWebp oc files env) newSize origSize =
        FileChoice.convertedArchive es → es.length = oc) ∧
    (convertToWebp oc files env = none →
      processCbzChoice (convertToWebp oc files env) newSize origSize =
        FileChoice.originalArchive) := by
  constructor
  · intro es h
    cases hc : convertToWebp oc files env with
    | none =>
      rw [hc] at h
      exact FileChoice.noConfusion h
    | some es2 =>
      rw [hc] at h
      have h2 : es2 = es := by
        simp only [processCbzChoice] at h
        split at h
        · exact FileChoice.convertedArchive.inj h
        split at h
        · exact FileChoice.convertedArchive.inj h
        · exact FileChoice.noConfusion h
      rw [← h2]
      exact convertToWebp_some_length hc
  · intro hn
    rw [hn]
    rfl

theorem C1_convert_preserves_entry_count_witness :
    (buildEntries [str "a.jpg", str "b.txt"] ⟨fun _ => true, 2048⟩).length = 2 :=
  (C1_convert_preserves_entry_count 2 [str "a.jpg", str "b.txt"]
      ⟨fun _ => true, 2048⟩ 500 1000).1
    (buildEntries [str "a.jpg", str "b.txt"] ⟨fun _ => true, 2048⟩) (by decide)

/-- C8: during archive conversion a failure of any single image never causes
the conversion of the whole archive to fail — whether `convert_to_webp`
succeeds is independent of the per-image conversion outcomes (given the same
written-archive size) — and every failed image contributes exactly one
original-bytes entry to the produced archive. -/
theorem C8_image_failure_never_fatal (oc : Nat) (files : List Str)
    (env env2 : ConvEnv) (p : Str) :
    (env.newArchiveSize = env2.newArchiveSize →
      ((convertToWebp oc files env).isSome ↔ (convertToWebp oc files env2).isSome)) ∧
    (isImageToConvert p = true → env.convertOk p = false → files.count p = 1 →
      ∀ es, convertToWebp oc files env = some es →
        es.count (NewEntry.original p) = 1) := by
  constructor
  · intro hsz
    rw [convertToWebp_isSome_iff, convertToWebp_isSome_iff, hsz]
  · intro himg hfail honce es hes
    have hbe : es = buildEntries files env := by
      unfold convertToWebp at hes
      split at hes
      · exact Option.noConfusion hes
      split at hes
      · exact Option.noConfusion hes
      split at hes
      · exact Option.noConfusion hes
      split at hes
      · exact Option.noConfusion hes
      exact (Option.some.inj hes).symm
    rw [hbe]
    exact buildEntries_count_original files env p himg hfail honce

theorem C8_image_failure_never_fatal_witness :
    ((convertToWebp 2 [str "a.jpg", str "b.jpg"] ⟨fun q => !(q == str "a.jpg"), 4096⟩).isSome ↔
      (convertToWebp 2 [str "a.jpg", str "b.jpg"] ⟨fun _ => true, 4096⟩).isSome) ∧
    (buildEntries [str "a.jpg", str "b.jpg"] ⟨fun q => !(q == str "a.jpg"), 4096⟩).count
      (NewEntry.original (str "a.jpg")) = 1 :=
  ⟨(C8_image_failure_never_fatal 2 [str "a.jpg", str "b.jpg"]
      ⟨fun q => !(q == str "a.jpg"), 4096⟩ ⟨fun _ => true, 4096⟩ (str "a.jpg")).1 rfl,
   (C8_image_failure_never_fatal 2 [str "a.jpg", str "b.jpg"]
      ⟨fun q => !(q == str "a.jpg"), 4096⟩ ⟨fun _ => true, 4096⟩ (str "a.jpg")).2
     (by decide) (by decide) (by decide)
     (buildEntries [str "a.jpg", str "b.jpg"] ⟨fun q => !(q == str "a.jpg"), 4096⟩)
     (by decide)⟩

/-- C3 counterexample: with the stipulated extraction
`Series = "Another Example"`, `Volume = "02"`, `move_to_library` composes
the destination `Another Example/Another Example v02.cbz` — the zero-padded
extracted text is rendered verbatim, so the claimed destination
`Another Example/Another Example v2.cbz` is not produced. -/
theorem C3_counterexample :
    moveToLibraryRelPath (str "Another Example") (some (str "02")) none
        (str "Another Example v02 (2022)_webp.cbz") false =
      str "Another Example/Another Example v02.cbz" ∧
    ¬(moveToLibraryRelPath (str "Another Example") (some (str "02")) none
          (str "Another Example v02 (2022)_webp.cbz") false =
        str "Another Example/Another Example v2.cbz") := by
  constructor
  · decide
  · decide

/-- C3 (amended): placing the file classified from
`"Another Example v02 (2022).cbz"` with `Series = "Another Example"`,
`Volume = "02"` composes the destination
`Another Example/Another Example v02.cbz` under the library root — the
volume token is the zero-padded extracted text rendered verbatim. -/
theorem C3_destination_renders_volume_text :
    moveToLibraryRelPath (str "Another Example") (some (str "02")) none
        (str "Another Example v02 (2022)_webp.cbz") false =
      str "Another Example/Another Example v02.cbz" := by decide

/-- C2 counterexample: a history record of the run whose `undone_at` is
already set is still processed by the undo loop — its destination file is
deleted and its `undone_at` overwritten — because the selection query has no
`undone_at IS NULL` filter. -/
theorem C2_counterexample :
    exUndoneRecord.undoneAt = some 50 ∧
    undoDeletePhase (str "runA") 99 [exUndoneRecord] exUndoFs =
      ([⟨1, str "runA", str "/dl/F/a.cbz", str "/lib/S/S - Chapter 1.cbz", some 99⟩],
       []) := by
  constructor
  · decide
  · decide

/-- C5 counterexample: with sorted scores `[2, -1]` — the second best
non-positive and within 4 points of the top — the grouped
manual-disambiguation prompt IS presented, contrary to the claim that it
appears only when the top two scores are both positive. -/
theorem C5_counterexample :
    groupedPromptShown exCloseMatches false = true ∧
    exCloseMatches.map (fun m => m.score) = [20, -10] := by
  constructor
  · decide
  · decide

/-- C5 (amended): in the standard interactive path the grouped
manual-disambiguation prompt is presented exactly when there are at least
two scored matches, the top score is positive, and the top two scores
differ by less than 4 points (40 tenths) — the sign of the second score is
not consulted; with fewer than two matches the grouped prompt is never
presented. -/
theorem C5_prompt_shown_iff (m1 m2 : ScoredMatch) (rest : List ScoredMatch)
    (m : ScoredMatch) :
    (groupedPromptShown (m1 :: m2 :: rest) false = true ↔
      (0 < m1.score ∧ m1.score - m2.score < 40)) ∧
    groupedPromptShown [m] false = false ∧
    groupedPromptShown [] false = false := by
  refine ⟨?_, ?_, ?_⟩
  · by_cases h1 : 0 < m1.score
    · by_cases h2 : m1.score - m2.score < 40
      · simp [groupedPromptShown, selectionBranch, h1, h2]
      · by_cases h5 : m1.score < 50 <;>
          simp [groupedPromptShown, selectionBranch, h1, h2, h5]
    · have h5 : m1.score < 50 := by omega
      simp [groupedPromptShown, selectionBranch, h1, h5]
  · by_cases h5 : m.score < 50
    · simp [groupedPromptShown, selectionBranch, h5]
    · by_cases h0 : 0 < m.score <;>
        simp [groupedPromptShown, selectionBranch, h5, h0]
  · rfl

/-- C6 counterexample: the extraction of rule `Ch` on
`"c5 Cool Series Name.cbz"` receives the coverage bonus although its
extracted field values concatenate to a single character, far below 60% of
the filename's length — the code's concatenation also counts the
`_pattern_name` tag and the original filename itself. -/
theorem C6_counterexample :
    (scoreMatchDetail exDictCh exFileCh 2025).coverage = true ∧
    ¬(6 * exFileCh.length < 10 * specExtractedLen exDictCh) := by
  constructor
  · decide
  · decide

/-- C6 (amended): the coverage concatenation ranges over every string value
of the match dict — including the rule-name tag and, in the processing path,
the `_original_filename` entry.  Whenever the dict carries the original
filename (as every dict scored through `score_all_patterns` does) and passes
structural validation, the 60% condition therefore holds automatically, and
the +3 bonus is added exactly when no significant penalty fired. -/
theorem C6_coverage_bonus_iff_no_penalty (d : MatchDict) (filename : Str)
    (currentYear : ℤ) (hval : validateMatch d = true)
    (hof : d.originalFilename = some filename) (hne : filename ≠ []) :
    ((scoreMatchDetail d filename currentYear).coverage = true ↔
      (scoreMatchDetail d filename currentYear).sig = false) := by
  have hlen : filename.length ≤ partsLen d := by
    unfold partsLen
    rw [hof]
    simp only [optLen]
    omega
  have hpos : 0 < filename.length := List.length_pos.mpr hne
  have hcov : 6 * filename.length < 10 * partsLen d := by omega
  unfold scoreMatchDetail
  rw [hval]
  simp only [Bool.not_true, Bool.false_eq_true, if_false, decide_eq_true hcov,
    Bool.true_and]
  cases hsig :
      ((if fieldActive d.Series then
          validateSeriesField (d.Series.getD []) (cleanFilename filename) d.patternName
        else ⟨0, false⟩).pen ||
        (if fieldActive d.Title then
          validateSeriesField (d.Title.getD []) (cleanFilename filename) d.patternName
        else ⟨0, false⟩).pen ||
        (if fieldActive d.Chapter then validateChapterField (d.Chapter.getD [])
        else ⟨0, false⟩).pen ||
        (if fieldActive d.Volume then validateVolumeField (d.Volume.getD [])
        else ⟨0, false⟩).pen ||
        (if fieldActive d.Year then validateYearField (d.Year.getD []) currentYear
        else ⟨0, false⟩).pen ||
        (checkFieldPollution d).pen) <;>
    simp [hsig]

theorem C6_coverage_bonus_iff_no_penalty_witness :
    ((scoreMatchDetail exDictCh exFileCh 2025).coverage = true ↔
      (scoreMatchDetail exDictCh exFileCh 2025).sig = false) :=
  C6_coverage_bonus_iff_no_penalty exDictCh exFileCh 2025 (by decide) (by decide)
    (by decide)

/-- C7 counterexample: the extraction of `Ch_bare` on
`"Magical Girl- 12 (2020).cbz"` has a `Series` value ending in the bare
separator `-`, yet it passes `validate_match` (a trailing dash on a value
longer than five characters is accepted) and scores 23.3 points — not 0. -/
theorem C7_counterexample :
    endsWithOneOf (pyStrip (str "Magical Girl-")) ['-', ':', '.'] = true ∧
    validateMatch exDictDash = true ∧
    scoreMatch exDictDash exFileDash 2025 = 233 := by
  refine ⟨by decide, by decide, by decide⟩

/-- C7 (amended): `score_match` returns 0 for every extraction whose
`Series` or `Title` value, stripped, ends in a bare separator without
reading as a likely abbreviation — except that a trailing `-` on a value
longer than five characters is accepted — or ends in a chapter-marker token
(`Ch.`, `Ch`, `Chapter`), or is exactly a volume token. -/
theorem C7_invalid_series_scores_zero (d : MatchDict) (filename : Str)
    (currentYear : ℤ) (v : Str) (hv : d.Series = some v ∨ d.Title = some v)
    (hnd : ¬(endsWithOneOf (pyStrip v) ['-'] = true ∧ 5 < (pyStrip v).length))
    (hbad :
      (endsWithOneOf (pyStrip v) ['-', ':', '.'] = true ∧
        isLikelyAbbreviation (pyStrip v) = false) ∨
      (validMarkers.any (fun m => m.isSuffixOf (pyStrip v))) = true ∨
      volOnlyFull (pyStrip v) = true) :
    scoreMatch d filename currentYear = 0 := by
  have h1 : (endsWithOneOf (pyStrip v) ['-'] && decide (5 < (pyStrip v).length)) =
      false := by
    by_cases ha : endsWithOneOf (pyStrip v) ['-'] = true
    · by_cases hb : 5 < (pyStrip v).length
      · exact absurd ⟨ha, hb⟩ hnd
      · simp [hb]
    · simp [ha]
  have hval : validateSeriesValue v = false := by
    unfold validateSeriesValue
    simp only [h1, Bool.false_eq_true, if_false]
    by_cases h2 : (endsWithOneOf (pyStrip v) ['-', ':', '.'] &&
        !isLikelyAbbreviation (pyStrip v)) = true
    · simp [h2]
    · by_cases h3 : (validMarkers.any (fun m => m.isSuffixOf (pyStrip v))) = true
      · simp [h2, h3]
      · by_cases h4 : volOnlyFull (pyStrip v) = true
        · simp [h2, h3, h4]
        · exfalso
          rcases hbad with ⟨ha, hb⟩ | h | h
          · exact h2 (by rw [ha, hb]; rfl)
          · exact h3 h
          · exact h4 h
  have hvm : validateMatch d = false := by
    unfold validateMatch
    rcases hv with h | h <;> rw [h] <;> simp [hval]
  unfold scoreMatch scoreMatchDetail
  rw [hvm]
  rfl

theorem C7_invalid_series_scores_zero_witness :
    scoreMatch
      ⟨some (str "My Series:"), none, some (str "5"), none, none, none, none, none,
       str "Ch_bare", some (str "My Series: 5.cbz")⟩
      (str "My Series: 5.cbz") 2025 = 0 :=
  C7_invalid_series_scores_zero _ _ 2025 (str "My Series:") (Or.inl rfl)
    (by decide) (Or.inl ⟨by decide, by decide⟩)

theorem scanFirst_some {α : Type} {f : Option Char → Str → Option α} :
    ∀ {prev : Option Char} {s : Str} {a : α}, scanFirst f prev s = some a →
      ∃ prev2 s2, f prev2 s2 = some a := by
  intro prev s
  induction s generalizing prev with
  | nil =>
    intro a h
    exact ⟨prev, [], h⟩
  | cons c cs ih =>
    intro a h
    unfold scanFirst at h
    cases hf : f prev (c :: cs) with
    | some b =>
      rw [hf] at h
      exact ⟨prev, c :: cs, hf.trans h⟩
    | none =>
      rw [hf] at h
      exact ih h

theorem volCapTail_nonempty {a ds : Str} (h : volCapTail a = some ds) : ds ≠ [] := by
  unfold volCapTail at h
  split at h
  · exact Option.noConfusion h
  split at h
  · rename_i h1 h2
    rw [← Option.some.inj h]
    intro hnil
    apply h1
    rw [List.isEmpty_iff]
    exact hnil
  · exact Option.noConfusion h

theorem volCapHere_nonempty {prev : Option Char} {rest ds : Str}
    (h : volCapHere prev rest = some ds) : ds ≠ [] := by
  unfold volCapHere at h
  split at h
  · split at h
    · split at h
      · split at h
        · split at h
          · rename_i heq
            rw [← Option.some.inj h]
            exact volCapTail_nonempty heq
          · exact volCapTail_nonempty h
        · exact volCapTail_nonempty h
      · exact Option.noConfusion h
    · exact Option.noConfusion h
  · exact Option.noConfusion h

theorem volCapFind_nonempty {s d : Str} (h : volCapFind s = some d) : d ≠ [] := by
  obtain ⟨prev2, s2, hf⟩ := scanFirst_some h
  exact volCapHere_nonempty hf

/-- C9: when the extraction lacks a (truthy) volume and the source file's
name carries a volume token, `move_to_library` inserts the captured digits
into the destination name; in exactly that branch an all-digits chapter
strictly between 1900 and 2100 is dropped from the destination name when
the filename also has a parenthesized 4-digit group, and is kept otherwise;
with a truthy extracted volume nothing is overridden. -/
theorem C9_move_to_library_overrides (series : Str) (volume chapter : Option Str)
    (src : Str) (d : Str) (hv : truthyOpt volume = false)
    (hcap : volCapFind src = some d) :
    ((moveToLibraryAdjust volume chapter src).1 = some d) ∧
    ((truthyOpt chapter && pyIsDigitStr (chapter.getD []) &&
        decide (1900 < pyNatOfDigits (chapter.getD [])) &&
        decide (pyNatOfDigits (chapter.getD []) < 2100) &&
        searchParenYear src) = true →
      moveToLibraryFileName series volume chapter src false =
        series ++ str " v" ++ d ++ extOf src) ∧
    ((truthyOpt chapter && pyIsDigitStr (chapter.getD []) &&
        decide (1900 < pyNatOfDigits (chapter.getD [])) &&
        decide (pyNatOfDigits (chapter.getD []) < 2100) &&
        searchParenYear src) = false →
      moveToLibraryFileName series volume chapter src false =
        series ++ str " v" ++ d ++
          (if truthyOpt chapter then str " - Chapter " ++ chapter.getD [] else []) ++
          extOf src) ∧
    (∀ volume2 : Option Str, truthyOpt volume2 = true →
      moveToLibraryAdjust volume2 chapter src = (volume2, chapter)) := by
  have hd : truthyOpt (some d) = true := by
    have hne := volCapFind_nonempty hcap
    simp [truthyOpt, List.isEmpty_iff, hne]
  have hadj :
      moveToLibraryAdjust volume chapter src =
        (some d,
         if (truthyOpt chapter && pyIsDigitStr (chapter.getD []) &&
              decide (1900 < pyNatOfDigits (chapter.getD [])) &&
              decide (pyNatOfDigits (chapter.getD []) < 2100) &&
              searchParenYear src) = true then none else chapter) := by
    unfold moveToLibraryAdjust
    rw [hv, hcap]
    rfl
  refine ⟨?_, ?_, ?_, ?_⟩
  · rw [hadj]
  · intro hcond
    unfold moveToLibraryFileName
    rw [hadj, hcond]
    simp only [if_true]
    unfold composeFileName
    rw [hd]
    simp [truthyOpt, List.append_assoc]
  · intro hcond
    unfold moveToLibraryFileName
    rw [hadj, hcond]
    simp only [Bool.false_eq_true, if_false]
    unfold composeFileName
    rw [hd]
    simp [List.append_assoc]
  · intro volume2 hv2
    unfold moveToLibraryAdjust
    rw [hv2]
    rfl

theorem C9_move_to_library_overrides_witness :
    (moveToLibraryAdjust none (some (str "2022"))
        (str "Another Example v02 (2022)_webp.cbz")).1 = some (str "02") ∧
    moveToLibraryFileName (str "Another Example") none (some (str "2022"))
        (str "Another Example v02 (2022)_webp.cbz") false =
      str "Another Example" ++ str " v" ++ str "02" ++
        extOf (str "Another Example v02 (2022)_webp.cbz") :=
  ⟨(C9_move_to_library_overrides (str "Another Example") none (some (str "2022"))
      (str "Another Example v02 (2022)_webp.cbz") (str "02") (by decide)
      (by decide)).1,
   (C9_move_to_library_overrides (str "Another Example") none (some (str "2022"))
      (str "Another Example v02 (2022)_webp.cbz") (str "02") (by decide)
      (by decide)).2.1 (by decide)⟩

theorem trySessionStored_none (filename : Str)
    (reApply : Str → Str → Option MatchDict) :
    trySessionStored filename none none reApply = none := rfl

/-- C4: for a series that has a stored pattern record, when the first file
classified in a run has chapter-only numbering (per the fingerprint probes
of `detect_format_change`) and a later file of the same series has
volume+chapter numbering, classifying the later file detects format drift
and does not blindly reuse the remembered rule: in automatic mode the
classifier falls through to scoring all rules
(`handle_auto_mode_selection` over `score_all_patterns`), and in
interactive mode any confirmation reply other than `y` — including the
empty default — likewise forces re-classification. -/
theorem C4_format_drift_triggers_rescoring (dbm : DbMatch) (a1 : Bool)
    (f1 f2 : Str) (st0 : FormatState) (driftAnswer : Str)
    (reApply : Str → Str → Option MatchDict) (scoreAll : List ScoredMatch)
    (extract1 extract2 : Option Str)
    (h0 : lookupFmt st0 dbm.seriesName = none)
    (h1c : hasChapterTokenDFC f1 = true) (h1v : hasVolumeTokenDFC f1 = false)
    (h2c : hasChapterTokenDFC f2 = true) (h2v : hasVolumeTokenDFC f2 = true) :
    (detectFormatChange st0 dbm.seriesName f1).1 = false ∧
    (detectFormatChange
        (matchBestPattern f1 a1 none none none extract1 (some dbm) st0
          driftAnswer reApply scoreAll).2 dbm.seriesName f2).1 = true ∧
    (matchBestPattern f2 true none none none extract2 (some dbm)
        (matchBestPattern f1 a1 none none none extract1 (some dbm) st0
          driftAnswer reApply scoreAll).2 driftAnswer reApply scoreAll).1 =
      MBPOutcome.resolvedAuto scoreAll ∧
    (driftAnswer ≠ str "y" →
      (matchBestPattern f2 false none none none extract2 (some dbm)
          (matchBestPattern f1 a1 none none none extract1 (some dbm) st0
            driftAnswer reApply scoreAll).2 driftAnswer reApply scoreAll).1 =
        MBPOutcome.resolvedInteractive scoreAll false) := by
  have hdfc1 : detectFormatChange st0 dbm.seriesName f1 =
      (false, setFmt st0 dbm.seriesName ⟨false, true, f1⟩) := by
    unfold detectFormatChange
    rw [h0, h1v, h1c]
  have htdm1 : tryDatabaseMatch (some dbm) st0 f1 a1 driftAnswer reApply =
      (tdmProceed dbm f1 a1 reApply, setFmt st0 dbm.seriesName ⟨false, true, f1⟩) := by
    simp [tryDatabaseMatch, hdfc1]
  have hst1 : (matchBestPattern f1 a1 none none none extract1 (some dbm) st0
      driftAnswer reApply scoreAll).2 = setFmt st0 dbm.seriesName ⟨false, true, f1⟩ := by
    simp only [matchBestPattern, htdm1]
    cases tdmProceed dbm f1 a1 reApply <;>
      simp [trySessionStored_none] <;>
      cases a1 <;> rfl
  have hfind0 : st0.find? (fun p => p.1 == dbm.seriesName) = none := by
    unfold lookupFmt at h0
    exact Option.map_eq_none'.mp h0
  have hlook1 : lookupFmt (setFmt st0 dbm.seriesName ⟨false, true, f1⟩)
      dbm.seriesName = some ⟨false, true, f1⟩ := by
    unfold setFmt
    rw [hfind0]
    simp only [Option.isSome_none, Bool.false_eq_true, if_false]
    unfold lookupFmt
    rw [List.find?_append, hfind0]
    simp [List.find?]
  have hdfc2 : (detectFormatChange (setFmt st0 dbm.seriesName ⟨false, true, f1⟩)
      dbm.seriesName f2).1 = true := by
    unfold detectFormatChange
    rw [hlook1, h2v, h2c]
    rfl
  refine ⟨by rw [hdfc1], by rw [hst1]; exact hdfc2, ?_, ?_⟩
  · have htdm2 : tryDatabaseMatch (some dbm)
        (setFmt st0 dbm.seriesName ⟨false, true, f1⟩) f2 true driftAnswer reApply =
        (.noMatch, (detectFormatChange (setFmt st0 dbm.seriesName ⟨false, true, f1⟩)
          dbm.seriesName f2).2) := by
      simp [tryDatabaseMatch, hdfc2]
    rw [hst1]
    simp only [matchBestPattern, htdm2]
    rfl
  · intro hans
    have hbeq : (driftAnswer == str "y") = false := by
      simp only [beq_eq_false_iff_ne, ne_eq]
      exact hans
    have htdm2 : tryDatabaseMatch (some dbm)
        (setFmt st0 dbm.seriesName ⟨false, true, f1⟩) f2 false driftAnswer reApply =
        (.noMatch, (detectFormatChange (setFmt st0 dbm.seriesName ⟨false, true, f1⟩)
          dbm.seriesName f2).2) := by
      simp [tryDatabaseMatch, hdfc2, hbeq]
    rw [hst1]
    simp only [matchBestPattern, htdm2]
    rfl

theorem C4_format_drift_triggers_rescoring_witness :
    (detectFormatChange
        (matchBestPattern (str "My Series Ch. 10.cbz") true none none none
          (some (str "My Series")) (some ⟨str "Volume", str "My Series", false⟩) []
          (str "n") (fun _ _ => none) []).2 (str "My Series")
        (str "My Series v2 Ch. 11.cbz")).1 = true ∧
    (matchBestPattern (str "My Series v2 Ch. 11.cbz") true none none none
        (some (str "My Series")) (some ⟨str "Volume", str "My Series", false⟩)
        (matchBestPattern (str "My Series Ch. 10.cbz") true none none none
          (some (str "My Series")) (some ⟨str "Volume", str "My Series", false⟩) []
          (str "n") (fun _ _ => none) []).2 (str "n") (fun _ _ => none) []).1 =
      MBPOutcome.resolvedAuto [] ∧
    (matchBestPattern (str "My Series v2 Ch. 11.cbz") false none none none
        (some (str "My Series")) (some ⟨str "Volume", str "My Series", false⟩)
        (matchBestPattern (str "My Series Ch. 10.cbz") true none none none
          (some (str "My Series")) (some ⟨str "Volume", str "My Series", false⟩) []
          (str "n") (fun _ _ => none) []).2 (str "n") (fun _ _ => none) []).1 =
      MBPOutcome.resolvedInteractive [] false :=
  ⟨(C4_format_drift_triggers_rescoring ⟨str "Volume", str "My Series", false⟩ true
      (str "My Series Ch. 10.cbz") (str "My Series v2 Ch. 11.cbz") [] (str "n")
      (fun _ _ => none) [] (some (str "My Series")) (some (str "My Series"))
      rfl (by decide) (by decide) (by decide) (by decide)).2.1,
   (C4_format_drift_triggers_rescoring ⟨str "Volume", str "My Series", false⟩ true
      (str "My Series Ch. 10.cbz") (str "My Series v2 Ch. 11.cbz") [] (str "n")
      (fun _ _ => none) [] (some (str "My Series")) (some (str "My Series"))
      rfl (by decide) (by decide) (by decide) (by decide)).2.2.1,
   (C4_format_drift_triggers_rescoring ⟨str "Volume", str "My Series", false⟩ true
      (str "My Series Ch. 10.cbz") (str "My Series v2 Ch. 11.cbz") [] (str "n")
      (fun _ _ => none) [] (some (str "My Series")) (some (str "My Series"))
      rfl (by decide) (by decide) (by decide) (by decide)).2.2.2 (by decide)⟩

theorem lprStep_eq_some (f : Str) (best : Option SeriesRow) (row r : SeriesRow)
    (h : lprStep f best row = some r) : r = row ∨ best = some r := by
  cases best with
  | none =>
    simp only [lprStep] at h
    split at h
    · exact Or.inl (Option.some.inj h).symm
    · exact Or.inr h
  | some b =>
    simp only [lprStep] at h
    split at h
    · split at h
      · exact Or.inl (Option.some.inj h).symm
      · exact Or.inr h
    · exact Or.inr h

theorem lprFold_mem (f : Str) :
    ∀ (db : List SeriesRow) (acc : Option SeriesRow) (r : SeriesRow),
      db.foldl (lprStep f) acc = some r → r ∈ db ∨ acc = some r := by
  intro db
  induction db with
  | nil => exact fun acc r h => Or.inr h
  | cons x xs ih =>
    intro acc r h
    simp only [List.foldl_cons] at h
    rcases ih (lprStep f acc x) r h with hm | hacc
    · exact Or.inl (List.mem_cons_of_mem _ hm)
    · rcases lprStep_eq_some f acc x r hacc with he | hb
      · exact Or.inl (he ▸ List.mem_cons_self x xs)
      · exact Or.inr hb

theorem longestPrefixRow_mem (f : Str) (db : List SeriesRow) (r : SeriesRow)
    (h : longestPrefixRow f db = some r) : r ∈ db := by
  rcases lprFold_mem f db none r h with hm | hacc
  · exact hm
  · exact Option.noConfusion hacc

theorem filter_name_singleton (db : List SeriesRow) (r : SeriesRow)
    (hnd : (db.map (fun row => row.seriesName)).Nodup) (hr : r ∈ db) :
    db.filter (fun row => row.seriesName == r.seriesName) = [r] := by
  induction db with
  | nil => exact absurd hr (List.not_mem_nil r)
  | cons x xs ih =>
    rw [List.map_cons, List.nodup_cons] at hnd
    obtain ⟨hx, hxs⟩ := hnd
    rcases List.mem_cons.mp hr with hrx | hrxs
    · subst hrx
      rw [List.filter_cons]
      simp only [beq_self_eq_true, if_true]
      have hnil : xs.filter (fun row => row.seriesName == r.seriesName) = [] := by
        rw [List.filter_eq_nil_iff]
        intro a ha hba
        exact hx (eq_of_beq hba ▸ List.mem_map_of_mem (fun row => row.seriesName) ha)
      rw [hnil]
    · have hne : (x.seriesName == r.seriesName) = false := by
        rw [beq_eq_false_iff_ne]
        intro he
        exact hx (he ▸ List.mem_map_of_mem (fun row => row.seriesName) hrxs)
      rw [List.filter_cons]
      simp only [hne, Bool.false_eq_true, if_false]
      exact ih hxs hrxs

/-- C10: under the UNIQUE(series_name) constraint, a `get_stored_pattern`
lookup that finds no record leaves the store untouched, and a lookup that
finds a record — by exact or longest-prefix series-name match — writes back
exactly one row as a side effect of the read: the found row, with
`use_count` incremented by one and `last_used_at` set to the current time,
every other column kept, and every other row unmodified (the found row is
the only row whose series name matches the rewrite's guard). -/
theorem C10_pattern_lookup_write_back (es : Option Str) (f : Str)
    (db : List SeriesRow) (now : Nat)
    (hnd : (db.map (fun row => row.seriesName)).Nodup) :
    ((getStoredPattern es f db now).1 = none →
      (getStoredPattern es f db now).2 = db) ∧
    (∀ info, (getStoredPattern es f db now).1 = some info →
      ∃ r, r ∈ db ∧
        info = ⟨r.patternName, r.isManual, r.seriesName, r.useCount + 1,
                r.matchDict⟩ ∧
        db.filter (fun row => row.seriesName == r.seriesName) = [r] ∧
        (getStoredPattern es f db now).2 =
          db.map (fun row =>
            if row.seriesName == r.seriesName then
              ⟨row.rowId, row.seriesName, row.patternName, row.isManual,
               row.matchDict, row.createdAt, now, r.useCount + 1⟩
            else row)) := by
  cases es with
  | none => exact ⟨fun _ => rfl, fun info h => Option.noConfusion h⟩
  | some key =>
    by_cases hk : key.isEmpty = true
    · refine ⟨fun _ => ?_, fun info h => ?_⟩
      · simp [getStoredPattern, hk]
      · simp [getStoredPattern, hk] at h
    · rw [Bool.not_eq_true] at hk
      cases hf : db.find? (fun row => row.seriesName == key) with
      | some r =>
        have hmem : r ∈ db := List.mem_of_find?_eq_some hf
        have hred : getStoredPattern (some key) f db now =
            (some ⟨r.patternName, r.isManual, r.seriesName, r.useCount + 1,
               r.matchDict⟩,
             db.map (fun row =>
               if row.seriesName == r.seriesName then
                 ⟨row.rowId, row.seriesName, row.patternName, row.isManual,
                  row.matchDict, row.createdAt, now, r.useCount + 1⟩
               else row)) := by
          simp [getStoredPattern, hk, hf]
        refine ⟨fun hnone => ?_, fun info hinfo => ?_⟩
        · rw [hred] at hnone
          exact Option.noConfusion hnone
        · rw [hred] at hinfo
          exact ⟨r, hmem, (Option.some.inj hinfo).symm,
                 filter_name_singleton db r hnd hmem, by rw [hred]⟩
      | none =>
        cases hl : longestPrefixRow f db with
        | none =>
          have hred : getStoredPattern (some key) f db now = (none, db) := by
            simp [getStoredPattern, hk, hf, hl]
          refine ⟨fun _ => by rw [hred], fun info hinfo => ?_⟩
          rw [hred] at hinfo
          exact Option.noConfusion hinfo
        | some r =>
          have hmem : r ∈ db := longestPrefixRow_mem f db r hl
          have hred : getStoredPattern (some key) f db now =
              (some ⟨r.patternName, r.isManual, r.seriesName, r.useCount + 1,
                 r.matchDict⟩,
               db.map (fun row =>
                 if row.seriesName == r.seriesName then
                   ⟨row.rowId, row.seriesName, row.patternName, row.isManual,
                    row.matchDict, row.createdAt, now, r.useCount + 1⟩
                 else row)) := by
            simp [getStoredPattern, hk, hf, hl]
          refine ⟨fun hnone => ?_, fun info hinfo => ?_⟩
          · rw [hred] at hnone
            exact Option.noConfusion hnone
          · rw [hred] at hinfo
            exact ⟨r, hmem, (Option.some.inj hinfo).symm,
                   filter_name_singleton db r hnd hmem, by rw [hred]⟩

theorem C10_pattern_lookup_write_back_witness :
    ∃ r, r ∈ exPatternDb ∧
      (⟨none, true, str "Beta", 1, none⟩ : PatternInfo) =
        ⟨r.patternName, r.isManual, r.seriesName, r.useCount + 1, r.matchDict⟩ ∧
      exPatternDb.filter (fun row => row.seriesName == r.seriesName) = [r] ∧
      (getStoredPattern (some (str "Beta")) (str "Beta 01.cbz") exPatternDb 99).2 =
        exPatternDb.map (fun row =>
          if row.seriesName == r.seriesName then
            ⟨row.rowId, row.seriesName, row.patternName, row.isManual,
             row.matchDict, row.createdAt, 99, r.useCount + 1⟩
          else row) :=
  (C10_pattern_lookup_write_back (some (str "Beta")) (str "Beta 01.cbz")
      exPatternDb 99 (by decide)).2
    ⟨none, true, str "Beta", 1, none⟩ (by decide)

theorem undoStep_fs_sub (now : Nat) (st : List HistRecord × FileSys)
    (x : HistRecord) (p : Str) (hp : p ∈ (undoStep now st x).2) : p ∈ st.2 := by
  unfold undoStep at hp
  split at hp
  · exact List.mem_of_mem_filter hp
  · exact hp

theorem undoFold_fs_sub (now : Nat) :
    ∀ (recs : List HistRecord) (st : List HistRecord × FileSys) (p : Str),
      p ∈ (recs.foldl (undoStep now) st).2 → p ∈ st.2 := by
  intro recs
  induction recs with
  | nil => exact fun st p hp => hp
  | cons x xs ih =>
    intro st p hp
    exact undoStep_fs_sub now st x p (ih (undoStep now st x) p hp)

theorem undoStep_removes_self (now : Nat) (st : List HistRecord × FileSys)
    (x : HistRecord) : x.destPath ∉ (undoStep now st x).2 := by
  unfold undoStep
  split
  · intro hmem
    rw [List.mem_filter] at hmem
    simp at hmem
  · next hc =>
    intro hmem
    exact hc (by simpa using hmem)

theorem undoStep_fs_keep (now : Nat) (st : List HistRecord × FileSys)
    (x : HistRecord) (p : Str) (hp : p ∈ st.2) (hne : p ≠ x.destPath) :
    p ∈ (undoStep now st x).2 := by
  unfold undoStep
  split
  · exact List.mem_filter.mpr ⟨hp, by simpa using hne⟩
  · exact hp

theorem undoFold_removes (now : Nat) :
    ∀ (recs : List HistRecord) (st : List HistRecord × FileSys),
      ∀ r ∈ recs, r.destPath ∉ (recs.foldl (undoStep now) st).2 := by
  intro recs
  induction recs with
  | nil => exact fun st r hr => absurd hr (List.not_mem_nil r)
  | cons x xs ih =>
    intro st r hr
    rcases List.mem_cons.mp hr with hrx | hrxs
    · subst hrx
      intro hmem
      exact undoStep_removes_self now st r
        (undoFold_fs_sub now xs (undoStep now st r) r.destPath hmem)
    · exact ih (undoStep now st x) r hrxs

theorem markUndone_mem_of_ne (d : List HistRecord) (rid now : Nat)
    (r : HistRecord) (h : r ∈ d) (hne : r.recId ≠ rid) :
    r ∈ markUndone d rid now := by
  have hb : (r.recId == rid) = false := by
    rw [beq_eq_false_iff_ne]
    exact hne
  unfold markUndone
  exact List.mem_map.mpr ⟨r, h, by simp [hb]⟩

theorem undoStep_db_mem_of_ne (now : Nat) (st : List HistRecord × FileSys)
    (x r : HistRecord) (h : r ∈ st.1) (hne : r.recId ≠ x.recId) :
    r ∈ (undoStep now st x).1 := by
  unfold undoStep
  split
  · exact markUndone_mem_of_ne st.1 x.recId now r h hne
  · exact h

theorem undoFold_db_mem_of_notin (now : Nat) :
    ∀ (recs : List HistRecord) (st : List HistRecord × FileSys) (r : HistRecord),
      r ∈ st.1 → (∀ s ∈ recs, r.recId ≠ s.recId) →
      r ∈ (recs.foldl (undoStep now) st).1 := by
  intro recs
  induction recs with
  | nil => exact fun st r h _ => h
  | cons x xs ih =>
    intro st r h hall
    exact ih (undoStep now st x) r
      (undoStep_db_mem_of_ne now st x r h (hall x (List.mem_cons_self x xs)))
      (fun s hs => hall s (List.mem_cons_of_mem x hs))

theorem undoStep_marks (now : Nat) (st : List HistRecord × FileSys)
    (x : HistRecord) (hx : x ∈ st.1) (hf : x.destPath ∈ st.2) :
    (⟨x.recId, x.runId, x.sourcePath, x.destPath, some now⟩ : HistRecord) ∈
      (undoStep now st x).1 := by
  have hc : st.2.contains x.destPath = true := by simpa using hf
  unfold undoStep
  rw [hc]
  simp only [if_true]
  unfold markUndone
  exact List.mem_map.mpr ⟨x, hx, by simp⟩

theorem undoFold_marks (now : Nat) :
    ∀ (recs : List HistRecord) (st : List HistRecord × FileSys),
      (recs.map (fun r => r.recId)).Nodup →
      (recs.map (fun r => r.destPath)).Nodup →
      ∀ r ∈ recs, r ∈ st.1 → r.destPath ∈ st.2 →
      (⟨r.recId, r.runId, r.sourcePath, r.destPath, some now⟩ : HistRecord) ∈
        (recs.foldl (undoStep now) st).1 := by
  intro recs
  induction recs with
  | nil => exact fun st _ _ r hr => absurd hr (List.not_mem_nil r)
  | cons x xs ih =>
    intro st hND hDP r hr hrdb hrfs
    rw [List.map_cons, List.nodup_cons] at hND hDP
    obtain ⟨hxid, hND2⟩ := hND
    obtain ⟨hxdp, hDP2⟩ := hDP
    rcases List.mem_cons.mp hr with hrx | hrxs
    · subst hrx
      exact undoFold_db_mem_of_notin now xs (undoStep now st r) _
        (undoStep_marks now st r hrdb hrfs)
        (fun s hs he => hxid (he ▸ List.mem_map_of_mem (fun t => t.recId) hs))
    · have hneid : r.recId ≠ x.recId := by
        intro he
        exact hxid (he ▸ List.mem_map_of_mem (fun t => t.recId) hrxs)
      have hnedp : r.destPath ≠ x.destPath := by
        intro he
        exact hxdp (he ▸ List.mem_map_of_mem (fun t => t.destPath) hrxs)
      exact ih (undoStep now st x) hND2 hDP2 r hrxs
        (undoStep_db_mem_of_ne now st x r hrdb hneid)
        (undoStep_fs_keep now st x r.destPath hrfs hnedp)

theorem undoStep_id_of_nodest (now : Nat) (st : List HistRecord × FileSys)
    (x : HistRecord) (hf : x.destPath ∉ st.2) : undoStep now st x = st := by
  have hc : st.2.contains x.destPath = false := by
    rw [← Bool.not_eq_true]
    intro hct
    exact hf (by simpa using hct)
  unfold undoStep
  rw [hc]
  simp

theorem undoFold_keep_nodest (now : Nat) :
    ∀ (recs : List HistRecord) (st : List HistRecord × FileSys),
      (recs.map (fun r => r.recId)).Nodup →
      ∀ r ∈ recs, r ∈ st.1 → r.destPath ∉ st.2 →
      r ∈ (recs.foldl (undoStep now) st).1 := by
  intro recs
  induction recs with
  | nil => exact fun st _ r hr => absurd hr (List.not_mem_nil r)
  | cons x xs ih =>
    intro st hND r hr hrdb hrfs
    rw [List.map_cons, List.nodup_cons] at hND
    obtain ⟨hxid, hND2⟩ := hND
    rcases List.mem_cons.mp hr with hrx | hrxs
    · subst hrx
      rw [List.foldl_cons, undoStep_id_of_nodest now st r hrfs]
      exact undoFold_db_mem_of_notin now xs st r hrdb
        (fun s hs he => hxid (he ▸ List.mem_map_of_mem (fun t => t.recId) hs))
    · have hneid : r.recId ≠ x.recId := by
        intro he
        exact hxid (he ▸ List.mem_map_of_mem (fun t => t.recId) hrxs)
      exact ih (undoStep now st x) hND2 r hrxs
        (undoStep_db_mem_of_ne now st x r hrdb hneid)
        (fun hmem => hrfs (undoStep_fs_sub now st x r.destPath hmem))

theorem markUndone_fields (d : List HistRecord) (rid now : Nat)
    (s : HistRecord) (h : s ∈ markUndone d rid now) :
    ∃ r ∈ d, s.runId = r.runId ∧ s.destPath = r.destPath := by
  unfold markUndone at h
  obtain ⟨r, hr, hg⟩ := List.mem_map.mp h
  refine ⟨r, hr, ?_⟩
  split at hg
  · rw [← hg]
    exact ⟨rfl, rfl⟩
  · rw [← hg]
    exact ⟨rfl, rfl⟩

theorem undoStep_fields (now : Nat) (st : List HistRecord × FileSys)
    (x s : HistRecord) (h : s ∈ (undoStep now st x).1) :
    ∃ r ∈ st.1, s.runId = r.runId ∧ s.destPath = r.destPath := by
  unfold undoStep at h
  split at h
  · exact markUndone_fields st.1 x.recId now s h
  · exact ⟨s, h, rfl, rfl⟩

theorem undoFold_fields (now : Nat) :
    ∀ (recs : List HistRecord) (st : List HistRecord × FileSys) (s : HistRecord),
      s ∈ (recs.foldl (undoStep now) st).1 →
      ∃ r ∈ st.1, s.runId = r.runId ∧ s.destPath = r.destPath := by
  intro recs
  induction recs with
  | nil => exact fun st s h => ⟨s, h, rfl, rfl⟩
  | cons x xs ih =>
    intro st s h
    obtain ⟨m, hm, hm1, hm2⟩ := ih (undoStep now st x) s h
    obtain ⟨r, hr, hr1, hr2⟩ := undoStep_fields now st x m hm
    exact ⟨r, hr, hm1.trans hr1, hm2.trans hr2⟩

theorem undoFold_id (now : Nat) :
    ∀ (recs : List HistRecord) (st : List HistRecord × FileSys),
      (∀ r ∈ recs, r.destPath ∉ st.2) →
      recs.foldl (undoStep now) st = st := by
  intro recs
  induction recs with
  | nil => exact fun st _ => rfl
  | cons x xs ih =>
    intro st h
    rw [List.foldl_cons, undoStep_id_of_nodest now st x (h x (List.mem_cons_self x xs))]
    exact ih st (fun r hr => h r (List.mem_cons_of_mem x hr))

/-- C2 (amended): the snapshot of the undo loop has no `undone_at IS NULL`
filter, so the deletion phase processes every history record of the run,
already-undone ones included. Under the schema invariants — distinct record
ids, and distinct destination paths within the run — after the phase: every
destination path of the run is gone from the file system; each record of
the run whose destination existed is re-marked with the new timestamp,
regardless of its previous `undone_at`; each record of the run whose
destination was absent is untouched; records of other runs are untouched;
and a second run of the phase on the resulting state — where all
destination files are gone — changes nothing. -/
theorem C2_undo_processes_all_run_records (run : Str) (now1 : Nat)
    (db : List HistRecord) (fs : FileSys)
    (hid : (db.map (fun r => r.recId)).Nodup)
    (hdp : ((db.filter (fun r => r.runId == run)).map (fun r => r.destPath)).Nodup) :
    (∀ r ∈ db, r.runId = run → r.destPath ∉ (undoDeletePhase run now1 db fs).2) ∧
    (∀ r ∈ db, r.runId = run → r.destPath ∈ fs →
      (⟨r.recId, r.runId, r.sourcePath, r.destPath, some now1⟩ : HistRecord) ∈
        (undoDeletePhase run now1 db fs).1) ∧
    (∀ r ∈ db, r.runId = run → r.destPath ∉ fs →
      r ∈ (undoDeletePhase run now1 db fs).1) ∧
    (∀ r ∈ db, r.runId ≠ run → r ∈ (undoDeletePhase run now1 db fs).1) ∧
    (∀ now2, undoDeletePhase run now2 (undoDeletePhase run now1 db fs).1
        (undoDeletePhase run now1 db fs).2 = undoDeletePhase run now1 db fs) := by
  have hNDrec : ((db.filter (fun r => r.runId == run)).map (fun r => r.recId)).Nodup :=
    hid.sublist ((List.filter_sublist db).map (fun r => r.recId))
  have hmemrec : ∀ r ∈ db, r.runId = run → r ∈ db.filter (fun r => r.runId == run) :=
    fun r hr hrun => List.mem_filter.mpr ⟨hr, by rw [hrun]; simp⟩
  refine ⟨?_, ?_, ?_, ?_, ?_⟩
  · intro r hr hrun
    exact undoFold_removes now1 (db.filter (fun r => r.runId == run)) (db, fs) r
      (hmemrec r hr hrun)
  · intro r hr hrun hfs
    exact undoFold_marks now1 (db.filter (fun r => r.runId == run)) (db, fs)
      hNDrec hdp r (hmemrec r hr hrun) hr hfs
  · intro r hr hrun hnofs
    exact undoFold_keep_nodest now1 (db.filter (fun r => r.runId == run)) (db, fs)
      hNDrec r (hmemrec r hr hrun) hr hnofs
  · intro r hr hne
    refine undoFold_db_mem_of_notin now1 (db.filter (fun r => r.runId == run))
      (db, fs) r hr ?_
    intro s hs he
    obtain ⟨hsdb, hsrun⟩ := List.mem_filter.mp hs
    have hrs : r = s := List.inj_on_of_nodup_map hid hr hsdb he
    exact hne (hrs ▸ eq_of_beq hsrun)
  · intro now2
    apply undoFold_id
    intro s hs
    obtain ⟨hsres, hsrun⟩ := List.mem_filter.mp hs
    obtain ⟨r, hrdb, hr1, hr2⟩ := undoFold_fields now1
      (db.filter (fun r => r.runId == run)) (db, fs) s hsres
    rw [hr2]
    exact undoFold_removes now1 (db.filter (fun r => r.runId == run)) (db, fs) r
      (List.mem_filter.mpr ⟨hrdb, by rw [← hr1]; exact hsrun⟩)

theorem C2_undo_processes_all_run_records_witness :
    (⟨1, str "runA", str "/dl/a.cbz", str "/lib/a.cbz", some 77⟩ : HistRecord) ∈
      (undoDeletePhase (str "runA") 77 exC2Db exC2Fs).1 ∧
    undoDeletePhase (str "runA") 99 (undoDeletePhase (str "runA") 77 exC2Db exC2Fs).1
        (undoDeletePhase (str "runA") 77 exC2Db exC2Fs).2 =
      undoDeletePhase (str "runA") 77 exC2Db exC2Fs :=
  ⟨(C2_undo_processes_all_run_records (str "runA") 77 exC2Db exC2Fs (by decide)
      (by decide)).2.1
      ⟨1, str "runA", str "/dl/a.cbz", str "/lib/a.cbz", some 50⟩ (by decide) rfl
      (by decide),
   (C2_undo_processes_all_run_records (str "runA") 77 exC2Db exC2Fs (by decide)
      (by decide)).2.2.2.2 99⟩

end MangaProc
